import Mathlib

/-!
Verification development for the sophia compiler front end.

The repository's visible sources (`values.rs`, `symbol_table.rs`,
`form/fun_form.rs`, `form/type_form.rs`, `value/form/attrs.rs`,
`value/forms/sig_form.rs`) are embedded faithfully below.  Modules the
visible sources depend on but which are absent from the snapshot (the
lexer `Tokens::from_str`, the generic `Form` parser, the `Value`
constructors, `Keyword`, `is_qualified`, `ProdForm`, `AppForm`,
`LetForm`, `CaseForm`, `TypesForm`, `Type`, `FunAppForm`) are modelled
from the specification; each such definition carries a doc comment
starting with `Modelled from the spec:`.

Machine-level bookkeeping that no claim observes (token source
locations, the `tokens` field of each form) is omitted; the `file`
component of tokens is kept as an `Option String` because `STElement`
records it.
-/

/-- The three error kinds of the error-handling design. -/
inductive ErrKind where
  | parsing
  | syntactic
  | semantic
deriving DecidableEq, Repr

/-- An error: a kind plus a human-readable description.  Source
locations are dropped from the embedding. -/
structure Err where
  kind : ErrKind
  desc : String
deriving DecidableEq, Repr

/-- Token kinds, as matched by `Values::from_str`. -/
inductive TokKind where
  | comment
  | docComment
  | emptyLiteral
  | keyword
  | uintLiteral
  | intLiteral
  | floatLiteral
  | charLiteral
  | stringLiteral
  | valueSymbol
  | typeSymbol
  | formStart
  | formEnd
deriving DecidableEq, Repr

/-- A lexical token: kind, text and originating file (none when the
source came from a string). -/
structure Token where
  kind : TokKind
  text : String
  file : Option String := none
deriving DecidableEq, Repr

/-- Whether a character list contains the module-path separator. -/
def containsSep : List Char → Bool
  | [] => false
  | c :: cs => if c = '.' then true else containsSep cs

/-- Modelled from the spec: `is_qualified` from `syntax.rs` (absent) —
a symbol is qualified when it contains the module-path separator. -/
def isQualified (s : String) : Bool :=
  containsSep s.data

/-- Modelled from the spec: the reserved builtin keywords recognized by
the lexer (the names of the `Keyword` enum used in `symbol_table.rs`). -/
def keywordStrings : List String :=
  ["import", "export", "def", "deftype", "defsig", "defprim", "defsum",
   "defprod", "defun", "defattrs", "type", "sig", "prim", "sum", "prod",
   "fun", "app", "attrs", "let", "case"]

/-- Modelled from the spec: classification of a lexed word into a token
kind — keywords, digit-led unsigned literals, upper-case-led type
symbols, and value symbols otherwise. -/
def classifyWord (w : String) : TokKind :=
  if w ∈ keywordStrings then TokKind.keyword
  else
    match w.data with
    | [] => TokKind.valueSymbol
    | c :: _ =>
      if c.isUpper then TokKind.typeSymbol
      else if c.isDigit then TokKind.uintLiteral
      else TokKind.valueSymbol

/-- A character that separates words in the lexer. -/
def isSepChar (c : Char) : Bool :=
  c = ' ' ∨ c = '\n' ∨ c = '\t' ∨ c = '(' ∨ c = ')'

/-- Take the longest run of non-separator characters. -/
def takeWordChars : List Char → List Char × List Char
  | [] => ([], [])
  | c :: cs =>
    if isSepChar c then ([], c :: cs)
    else
      let (w, rest) := takeWordChars cs
      (c :: w, rest)

/-- Drop characters up to (excluding) the next newline. -/
def dropLineChars : List Char → List Char
  | [] => []
  | c :: cs => if c = '\n' then c :: cs else dropLineChars cs

/-- Modelled from the spec: the lexer `Tokens::from_str` (absent from
the snapshot) — whitespace-separated words, parentheses as form
delimiters, `()` as the empty literal, `#`-led line comments and
`#!`-led doc comments.  Written with fuel for totality; the fuel is
the character count, which bounds the recursion depth. -/
def tokenizeAux : Nat → List Char → List Token
  | 0, _ => []
  | _, [] => []
  | Nat.succ fuel, c :: cs =>
    if c = ' ' ∨ c = '\n' ∨ c = '\t' then tokenizeAux fuel cs
    else if c = '(' then
      match cs with
      | ')' :: cs2 => { kind := TokKind.emptyLiteral, text := "()" } :: tokenizeAux fuel cs2
      | _ => { kind := TokKind.formStart, text := "(" } :: tokenizeAux fuel cs
    else if c = ')' then
      { kind := TokKind.formEnd, text := ")" } :: tokenizeAux fuel cs
    else if c = '#' then
      match cs with
      | '!' :: cs2 =>
        { kind := TokKind.docComment, text := "" } :: tokenizeAux fuel (dropLineChars cs2)
      | _ =>
        { kind := TokKind.comment, text := "" } :: tokenizeAux fuel (dropLineChars cs)
    else
      let (w, rest) := takeWordChars (c :: cs)
      let word := String.mk w
      { kind := classifyWord word, text := word } :: tokenizeAux fuel rest

/-- Tokenize a source string. -/
def tokenize (s : String) : List Token :=
  tokenizeAux (s.data.length + 1) s.data

/-- The comment filter applied by `Values::from_str` before its scan. -/
def filterComments (ts : List Token) : List Token :=
  ts.filter (fun t => t.kind ≠ TokKind.comment ∧ t.kind ≠ TokKind.docComment)

/-- Modelled from the spec: the type-level keywords (atomic/primitive
type names recognized by the lexer). -/
def typeKeywordStrings : List String :=
  ["Empty", "Atomic", "UInt", "Int", "Float", "Char", "String", "Fun"]

/-- `SimpleValue`: atomic semantic classification of a single token. -/
inductive SimpleValue where
  | empty
  | prim : String → SimpleValue
  | typeKeyword : String → SimpleValue
  | valueSymbol : String → SimpleValue
  | typeSymbol : String → SimpleValue
  | typePathSymbol : String → SimpleValue
deriving DecidableEq, Repr

/-- The textual content of a `SimpleValue` (its `Display`). -/
def SimpleValue.toStr : SimpleValue → String
  | SimpleValue.empty => "()"
  | SimpleValue.prim s => s
  | SimpleValue.typeKeyword s => s
  | SimpleValue.valueSymbol s => s
  | SimpleValue.typeSymbol s => s
  | SimpleValue.typePathSymbol s => s

/-- The last path segment of a word (the characters after the last
separator). -/
def lastSegment (w : String) : List Char :=
  (w.data.reverse.takeWhile (fun c => c ≠ '.')).reverse

/-- Modelled from the spec: lexical classification of a word into a
`SimpleValue` — qualification is decided once, lexically: a word
containing the separator is a qualified value symbol or (when its last
segment is upper-case-led) a type path symbol; unqualified words are
type keywords, type symbols (upper-case-led), primitive literals
(digit-led) or value symbols. -/
def SimpleValue.fromWord (w : String) : SimpleValue :=
  if isQualified w then
    match lastSegment w with
    | c :: _ => if c.isUpper then SimpleValue.typePathSymbol w else SimpleValue.valueSymbol w
    | [] => SimpleValue.valueSymbol w
  else if w ∈ typeKeywordStrings then SimpleValue.typeKeyword w
  else
    match w.data with
    | [] => SimpleValue.valueSymbol w
    | c :: _ =>
      if c.isUpper then SimpleValue.typeSymbol w
      else if c.isDigit then SimpleValue.prim w
      else SimpleValue.valueSymbol w

mutual
/-- `Form`: generic parenthesized syntax node — a head `SimpleValue`
plus an ordered tail of elements. -/
inductive Form where
  | mk : SimpleValue → List FormTailElement → Form
/-- A tail element of a `Form`: a simple value or a nested form. -/
inductive FormTailElement where
  | simple : SimpleValue → FormTailElement
  | form : Form → FormTailElement
end

/-- The head of a form. -/
def Form.head : Form → SimpleValue
  | Form.mk h _ => h

/-- The tail of a form. -/
def Form.tail : Form → List FormTailElement
  | Form.mk _ t => t

/-- The form's name: the text of its head (`form.name` in
`fun_form.rs`). -/
def Form.name (f : Form) : String :=
  f.head.toStr

mutual
/-- Canonical serialization of a form:
`"(" + head + " " + tail.join(" ") + ")"`. -/
def Form.toStr : Form → String
  | Form.mk h t => "(" ++ h.toStr ++ Form.tailToStr t ++ ")"
/-- Serialization of a form tail (each element preceded by a space). -/
def Form.tailToStr : List FormTailElement → String
  | [] => ""
  | e :: es => " " ++ FormTailElement.toStr e ++ Form.tailToStr es
/-- Serialization of a tail element. -/
def FormTailElement.toStr : FormTailElement → String
  | FormTailElement.simple sv => sv.toStr
  | FormTailElement.form f => Form.toStr f
end

mutual
/-- Modelled from the spec: `Form::from_tokens` grouping (absent
`form/form.rs`) — parse one element (fuel-bounded). -/
def parseOneF : Nat → List Token → Option (FormTailElement × List Token)
  | 0, _ => none
  | Nat.succ _, [] => none
  | Nat.succ fuel, t :: ts =>
    match t.kind with
    | TokKind.formStart =>
      match parseManyF fuel ts with
      | some (FormTailElement.simple h :: tl, rest) =>
        some (FormTailElement.form (Form.mk h tl), rest)
      | _ => none
    | TokKind.formEnd => none
    | TokKind.comment => none
    | TokKind.docComment => none
    | TokKind.emptyLiteral => some (FormTailElement.simple SimpleValue.empty, ts)
    | _ => some (FormTailElement.simple (SimpleValue.fromWord t.text), ts)
/-- Modelled from the spec: parse elements until the closing paren. -/
def parseManyF : Nat → List Token → Option (List FormTailElement × List Token)
  | 0, _ => none
  | Nat.succ _, [] => none
  | Nat.succ fuel, t :: ts =>
    if t.kind = TokKind.formEnd then some ([], ts)
    else
      match parseOneF fuel (t :: ts) with
      | some (e, rest) =>
        match parseManyF fuel rest with
        | some (es, rest2) => some (e :: es, rest2)
        | none => none
      | none => none
end

/-- Modelled from the spec: `Form::from_tokens` — the whole token run
must reduce to exactly one form with a head. -/
def Form.fromTokens (toks : List Token) : Except Err Form :=
  match parseOneF (toks.length * 2 + 2) toks with
  | some (FormTailElement.form f, []) => Except.ok f
  | _ => Except.error { kind := ErrKind.syntactic, desc := "expected a form" }

/-- Parse a form from a source string (`from_str` = lexing followed by
`from_tokens`; comments are filtered upstream). -/
def Form.fromStr (s : String) : Except Err Form :=
  Form.fromTokens (filterComments (tokenize s))

/-- Join strings with single spaces. -/
def joinSp : List String → String
  | [] => ""
  | [x] => x
  | x :: xs => x ++ " " ++ joinSp xs

mutual
/-- Modelled from the spec: `TypesForm` (absent `types_form.rs`) — a
nested form of types: a head plus tail elements that are themselves
types. -/
inductive TypesForm where
  | mk : SimpleValue → List TypesFormTailElement → TypesForm
/-- The classification of a `TypesForm` tail element, as used by
`type_form.rs`: Empty, Atomic, Keyword, Symbol, PathSymbol or a nested
form of types. -/
inductive TypesFormTailElement where
  | empty : SimpleValue → TypesFormTailElement
  | atomic : SimpleValue → TypesFormTailElement
  | keyword : SimpleValue → TypesFormTailElement
  | symbol : SimpleValue → TypesFormTailElement
  | pathSymbol : SimpleValue → TypesFormTailElement
  | form : TypesForm → TypesFormTailElement
end

mutual
/-- Serialization of a `TypesForm`. -/
def TypesForm.toStr : TypesForm → String
  | TypesForm.mk h t => "(" ++ h.toStr ++ TypesForm.tailToStr t ++ ")"
/-- Serialization of a `TypesForm` tail. -/
def TypesForm.tailToStr : List TypesFormTailElement → String
  | [] => ""
  | e :: es => " " ++ TypesFormTailElement.toStr e ++ TypesForm.tailToStr es
/-- Serialization of a `TypesForm` tail element. -/
def TypesFormTailElement.toStr : TypesFormTailElement → String
  | TypesFormTailElement.empty sv => sv.toStr
  | TypesFormTailElement.atomic sv => sv.toStr
  | TypesFormTailElement.keyword sv => sv.toStr
  | TypesFormTailElement.symbol sv => sv.toStr
  | TypesFormTailElement.pathSymbol sv => sv.toStr
  | TypesFormTailElement.form tf => TypesForm.toStr tf
end

/-- Classification of a simple value as a type element. -/
def typesElemOfSimple (sv : SimpleValue) : Except Err TypesFormTailElement :=
  match sv with
  | SimpleValue.typeKeyword k =>
    if k = "Empty" then Except.ok (TypesFormTailElement.empty sv)
    else if k = "Atomic" then Except.ok (TypesFormTailElement.atomic sv)
    else Except.ok (TypesFormTailElement.keyword sv)
  | SimpleValue.typeSymbol _ => Except.ok (TypesFormTailElement.symbol sv)
  | SimpleValue.typePathSymbol _ => Except.ok (TypesFormTailElement.pathSymbol sv)
  | SimpleValue.empty => Except.ok (TypesFormTailElement.empty sv)
  | _ => Except.error { kind := ErrKind.syntactic, desc := "expected a type" }

/-- Whether a simple value may head a form of types. -/
def isTypeHead (sv : SimpleValue) : Bool :=
  match sv with
  | SimpleValue.typeKeyword _ => true
  | SimpleValue.typeSymbol _ => true
  | SimpleValue.typePathSymbol _ => true
  | _ => false

mutual
/-- Modelled from the spec: `TypesForm::from_form` (absent) — the head
must be a type keyword or type symbol, every tail element a type. -/
def TypesForm.fromForm : Form → Except Err TypesForm
  | Form.mk h t =>
    if isTypeHead h then
      match TypesForm.tailFromList t with
      | Except.ok elems => Except.ok (TypesForm.mk h elems)
      | Except.error e => Except.error e
    else Except.error { kind := ErrKind.syntactic, desc := "expected a type keyword or symbol" }
/-- Modelled from the spec: classify each tail element as a type. -/
def TypesForm.tailFromList : List FormTailElement → Except Err (List TypesFormTailElement)
  | [] => Except.ok []
  | e :: es =>
    match TypesForm.elemFrom e with
    | Except.ok elem =>
      match TypesForm.tailFromList es with
      | Except.ok rest => Except.ok (elem :: rest)
      | Except.error err => Except.error err
    | Except.error err => Except.error err
/-- Modelled from the spec: classify one tail element as a type. -/
def TypesForm.elemFrom : FormTailElement → Except Err TypesFormTailElement
  | FormTailElement.simple sv => typesElemOfSimple sv
  | FormTailElement.form f =>
    match TypesForm.fromForm f with
    | Except.ok tf => Except.ok (TypesFormTailElement.form tf)
    | Except.error e => Except.error e
end

/-- `TypeFormValue` is an alias of `TypesFormTailElement`
(`type_form.rs` line 10). -/
def TypeFormValue := TypesFormTailElement

/-- `TypeForm`: `(type name value)` — a named type definition form. -/
structure TypeForm where
  name : SimpleValue
  value : TypesFormTailElement

/-- `TypeForm::from_form` (embedded from `form/type_form.rs`). -/
def TypeForm.fromForm (form : Form) : Except Err TypeForm :=
  if form.head.toStr ≠ "type" then
    Except.error { kind := ErrKind.syntactic, desc := "expected a type keyword" }
  else
    match form.tail with
    | [e0, e1] =>
      match e0 with
      | FormTailElement.simple sv0 =>
        match sv0 with
        | SimpleValue.typeSymbol _ =>
          match e1 with
          | FormTailElement.simple sv1 =>
            (match sv1 with
            | SimpleValue.typeKeyword k =>
              if k = "Empty" then
                Except.ok { name := sv0, value := TypesFormTailElement.empty sv1 }
              else if k = "Atomic" then
                Except.ok { name := sv0, value := TypesFormTailElement.atomic sv1 }
              else
                Except.ok { name := sv0, value := TypesFormTailElement.keyword sv1 }
            | SimpleValue.typeSymbol _ =>
              Except.ok { name := sv0, value := TypesFormTailElement.symbol sv1 }
            | SimpleValue.typePathSymbol _ =>
              Except.ok { name := sv0, value := TypesFormTailElement.pathSymbol sv1 }
            | _ =>
              Except.error { kind := ErrKind.syntactic, desc := "unexpected value" })
          | FormTailElement.form g =>
            match TypesForm.fromForm g with
            | Except.ok tf =>
              Except.ok { name := sv0, value := TypesFormTailElement.form tf }
            | Except.error _ =>
              Except.error { kind := ErrKind.syntactic, desc := "expected a form of types" }
        | _ =>
          Except.error { kind := ErrKind.syntactic, desc := "expected an unqualified type symbol" }
      | FormTailElement.form _ =>
        Except.error { kind := ErrKind.syntactic, desc := "unexpected form" }
    | _ => Except.error { kind := ErrKind.syntactic, desc := "expected a name and a type" }

/-- `TypeForm::to_string`: `(type {name} {value})`. -/
def TypeForm.toStr (tf : TypeForm) : String :=
  "(type " ++ tf.name.toStr ++ " " ++ tf.value.toStr ++ ")"

/-- `TypeForm::from_str`: lex, group, validate. -/
def TypeForm.fromStr (s : String) : Except Err TypeForm :=
  match Form.fromStr s with
  | Except.ok f => TypeForm.fromForm f
  | Except.error e => Except.error e

/-- Modelled from the spec: the value-layer `Type` used by `SigForm`
(absent `value/types.rs`) — a simple type or a nested form of types. -/
inductive SType where
  | simple : SimpleValue → SType
  | form : SimpleValue → List SType → SType

mutual
/-- Serialization of a value-layer type. -/
def SType.toStr : SType → String
  | SType.simple sv => sv.toStr
  | SType.form h args => "(" ++ h.toStr ++ SType.listToStr args ++ ")"
/-- Serialization of a type argument list. -/
def SType.listToStr : List SType → String
  | [] => ""
  | t :: ts => " " ++ SType.toStr t ++ SType.listToStr ts
end

/-- Modelled from the spec: `Type::from_simple_value` — a simple value
is a type when it is a type keyword, type symbol, type path symbol or
the empty literal. -/
def SType.fromSimpleValue (sv : SimpleValue) : Except Err SType :=
  match sv with
  | SimpleValue.typeKeyword _ => Except.ok (SType.simple sv)
  | SimpleValue.typeSymbol _ => Except.ok (SType.simple sv)
  | SimpleValue.typePathSymbol _ => Except.ok (SType.simple sv)
  | SimpleValue.empty => Except.ok (SType.simple sv)
  | _ => Except.error { kind := ErrKind.syntactic, desc := "expected a type" }

mutual
/-- Modelled from the spec: `Type::from_form` — the head must be a type
keyword or symbol and every tail element a type. -/
def SType.fromForm : Form → Except Err SType
  | Form.mk h t =>
    if isTypeHead h then
      match SType.listFrom t with
      | Except.ok args => Except.ok (SType.form h args)
      | Except.error e => Except.error e
    else Except.error { kind := ErrKind.syntactic, desc := "expected a type keyword or symbol" }
/-- Modelled from the spec: classify each tail element as a type. -/
def SType.listFrom : List FormTailElement → Except Err (List SType)
  | [] => Except.ok []
  | FormTailElement.simple sv :: es =>
    match SType.fromSimpleValue sv with
    | Except.ok ty =>
      match SType.listFrom es with
      | Except.ok rest => Except.ok (ty :: rest)
      | Except.error err => Except.error err
    | Except.error err => Except.error err
  | FormTailElement.form f :: es =>
    match SType.fromForm f with
    | Except.ok ty =>
      match SType.listFrom es with
      | Except.ok rest => Except.ok (ty :: rest)
      | Except.error err => Except.error err
    | Except.error err => Except.error err
end

/-- `SigForm`: `(sig name type)` — a named signature declaration. -/
structure SigForm where
  name : SimpleValue
  value : SType

/-- `SigForm::from_form` (embedded from `value/forms/sig_form.rs`). -/
def SigForm.fromForm (form : Form) : Except Err SigForm :=
  if form.head.toStr ≠ "sig" then
    Except.error { kind := ErrKind.syntactic, desc := "expected a sig keyword" }
  else
    match form.tail with
    | [e0, e1] =>
      match e0 with
      | FormTailElement.simple sv0 =>
        match sv0 with
        | SimpleValue.valueSymbol _ =>
          (match e1 with
          | FormTailElement.simple sv1 =>
            match SType.fromSimpleValue sv1 with
            | Except.ok ty => Except.ok { name := sv0, value := ty }
            | Except.error e => Except.error e
          | FormTailElement.form g =>
            match SType.fromForm g with
            | Except.ok ty => Except.ok { name := sv0, value := ty }
            | Except.error e => Except.error e)
        | _ =>
          Except.error { kind := ErrKind.syntactic, desc := "expected an unqualified value symbol" }
      | FormTailElement.form _ =>
        Except.error { kind := ErrKind.syntactic, desc := "unexpected form" }
    | _ => Except.error { kind := ErrKind.syntactic, desc := "expected a name and a type" }

/-- `SigForm::to_string`: `(sig {name} {value})`. -/
def SigForm.toStr (sf : SigForm) : String :=
  "(sig " ++ sf.name.toStr ++ " " ++ sf.value.toStr ++ ")"

/-- `SigForm::from_str`. -/
def SigForm.fromStr (s : String) : Except Err SigForm :=
  match Form.fromStr s with
  | Except.ok f => SigForm.fromForm f
  | Except.error e => Except.error e

/-- A `ProdForm` element, as matched by `fun_form.rs`:
`ProdFormValue::{TypeSymbol, ValueSymbol, ...}`. -/
inductive ProdFormValue where
  | empty
  | prim : String → ProdFormValue
  | typeKeyword : String → ProdFormValue
  | valueSymbol : String → ProdFormValue
  | typeSymbol : String → ProdFormValue
  | pathSymbol : String → ProdFormValue
  | form : Form → ProdFormValue

/-- `ProdForm`: `(prod v1 v2 ...)` — an ordered product of values. -/
structure ProdForm where
  values : List ProdFormValue

/-- Serialization of a `ProdForm` element. -/
def ProdFormValue.toStr : ProdFormValue → String
  | ProdFormValue.empty => "()"
  | ProdFormValue.prim s => s
  | ProdFormValue.typeKeyword s => s
  | ProdFormValue.valueSymbol s => s
  | ProdFormValue.typeSymbol s => s
  | ProdFormValue.pathSymbol s => s
  | ProdFormValue.form f => Form.toStr f

/-- Modelled from the spec: `ProdForm::from_form` (absent
`prod_form.rs`) — the head must be the `prod` keyword; every tail
element becomes a product value. -/
def ProdForm.fromForm (f : Form) : Except Err ProdForm :=
  if f.name ≠ "prod" then
    Except.error { kind := ErrKind.syntactic, desc := "expected a prod keyword" }
  else
    Except.ok
      { values :=
          f.tail.map (fun e =>
            match e with
            | FormTailElement.simple SimpleValue.empty => ProdFormValue.empty
            | FormTailElement.simple (SimpleValue.prim s) => ProdFormValue.prim s
            | FormTailElement.simple (SimpleValue.typeKeyword s) => ProdFormValue.typeKeyword s
            | FormTailElement.simple (SimpleValue.valueSymbol s) => ProdFormValue.valueSymbol s
            | FormTailElement.simple (SimpleValue.typeSymbol s) => ProdFormValue.typeSymbol s
            | FormTailElement.simple (SimpleValue.typePathSymbol s) => ProdFormValue.pathSymbol s
            | FormTailElement.form g => ProdFormValue.form g) }

/-- `ProdForm::to_string`. -/
def ProdForm.toStr (p : ProdForm) : String :=
  "(prod " ++ joinSp (p.values.map ProdFormValue.toStr) ++ ")"

/-- Modelled from the spec: `AppForm` (absent `app_form.rs`) — a
generic function-application form: a value-symbol head applied to an
ordered tail. -/
structure AppForm where
  name : String
  params : List FormTailElement

/-- Modelled from the spec: `AppForm::from_form` — the head must be a
value symbol (possibly qualified). -/
def AppForm.fromForm (f : Form) : Except Err AppForm :=
  match f.head with
  | SimpleValue.valueSymbol s => Except.ok { name := s, params := f.tail }
  | _ => Except.error { kind := ErrKind.syntactic, desc := "expected a value symbol" }

/-- `AppForm::to_string`. -/
def AppForm.toStr (a : AppForm) : String :=
  "(" ++ a.name ++ Form.tailToStr a.params ++ ")"

/-- Modelled from the spec: `LetForm` (absent `let_form.rs`) — a
structurally identical sibling form headed by `let`. -/
structure LetForm where
  inner : Form

/-- Modelled from the spec: `LetForm::from_form`. -/
def LetForm.fromForm (f : Form) : Except Err LetForm :=
  if f.name = "let" then Except.ok { inner := f }
  else Except.error { kind := ErrKind.syntactic, desc := "expected a let keyword" }

/-- `LetForm::to_string`. -/
def LetForm.toStr (l : LetForm) : String :=
  Form.toStr l.inner

/-- Modelled from the spec: `CaseForm` (absent `case_form.rs`) — a
structurally identical sibling form headed by `case`. -/
structure CaseForm where
  inner : Form

/-- Modelled from the spec: `CaseForm::from_form`. -/
def CaseForm.fromForm (f : Form) : Except Err CaseForm :=
  if f.name = "case" then Except.ok { inner := f }
  else Except.error { kind := ErrKind.syntactic, desc := "expected a case keyword" }

/-- `CaseForm::to_string`. -/
def CaseForm.toStr (c : CaseForm) : String :=
  Form.toStr c.inner

/-- `FunFormParam`: Empty, ValueSymbol or TypeSymbol
(`form/fun_form.rs`). -/
inductive FunFormParam where
  | empty
  | valueSymbol : String → FunFormParam
  | typeSymbol : String → FunFormParam
deriving DecidableEq, Repr

/-- `FunFormParam::to_string`. -/
def FunFormParam.toStr : FunFormParam → String
  | FunFormParam.empty => "()"
  | FunFormParam.valueSymbol s => s
  | FunFormParam.typeSymbol s => s

/-- `FunFormBody`: the closed variant of function bodies
(`form/fun_form.rs`). -/
inductive FunFormBody where
  | empty
  | prim : String → FunFormBody
  | typeKeyword : String → FunFormBody
  | valueSymbol : String → FunFormBody
  | typeSymbol : String → FunFormBody
  | typeForm : TypeForm → FunFormBody
  | prodForm : ProdForm → FunFormBody
  | appForm : AppForm → FunFormBody
  | letForm : LetForm → FunFormBody
  | caseForm : CaseForm → FunFormBody

/-- `FunFormBody::to_string`. -/
def FunFormBody.toStr : FunFormBody → String
  | FunFormBody.empty => "()"
  | FunFormBody.prim s => s
  | FunFormBody.typeKeyword s => s
  | FunFormBody.valueSymbol s => s
  | FunFormBody.typeSymbol s => s
  | FunFormBody.typeForm tf => TypeForm.toStr tf
  | FunFormBody.prodForm pf => ProdForm.toStr pf
  | FunFormBody.appForm af => AppForm.toStr af
  | FunFormBody.letForm lf => LetForm.toStr lf
  | FunFormBody.caseForm cf => CaseForm.toStr cf

/-- `FunForm`: `(fun params body)`. -/
structure FunForm where
  params : List FunFormParam
  body : FunFormBody

/-- The parameter-list loop of `FunForm::from_form` over a product of
symbols: each element must be an unqualified value or type symbol. -/
def funParamsFromProdValues : List ProdFormValue → Except Err (List FunFormParam)
  | [] => Except.ok []
  | v :: vs =>
    match v with
    | ProdFormValue.typeSymbol s =>
      if isQualified s then
        Except.error { kind := ErrKind.syntactic, desc := "expected an unqualified symbol" }
      else
        match funParamsFromProdValues vs with
        | Except.ok rest => Except.ok (FunFormParam.typeSymbol s :: rest)
        | Except.error e => Except.error e
    | ProdFormValue.valueSymbol s =>
      if isQualified s then
        Except.error { kind := ErrKind.syntactic, desc := "expected an unqualified symbol" }
      else
        match funParamsFromProdValues vs with
        | Except.ok rest => Except.ok (FunFormParam.valueSymbol s :: rest)
        | Except.error e => Except.error e
    | _ =>
      Except.error { kind := ErrKind.syntactic, desc := "expected a product of symbols" }

/-- The params-position match of `FunForm::from_form`
(`form/fun_form.rs` lines 141-208). -/
def funParams (e : FormTailElement) : Except Err (List FunFormParam) :=
  match e with
  | FormTailElement.simple SimpleValue.empty => Except.ok []
  | FormTailElement.simple (SimpleValue.valueSymbol s) =>
    if isQualified s then
      Except.error { kind := ErrKind.syntactic, desc := "expected an unqualified symbol" }
    else Except.ok [FunFormParam.valueSymbol s]
  | FormTailElement.simple (SimpleValue.typeSymbol s) =>
    if isQualified s then
      Except.error { kind := ErrKind.syntactic, desc := "expected an unqualified symbol" }
    else Except.ok [FunFormParam.typeSymbol s]
  | FormTailElement.form g =>
    match ProdForm.fromForm g with
    | Except.ok prod => funParamsFromProdValues prod.values
    | Except.error _ =>
      Except.error { kind := ErrKind.syntactic, desc := "expected a product of symbols" }
  | _ => Except.error { kind := ErrKind.syntactic, desc := "unexpected function params" }

/-- The body-position match of `FunForm::from_form`, with the
fixed-order cascade TypeForm, ProdForm, LetForm, CaseForm, AppForm
(`form/fun_form.rs` lines 210-250). -/
def funBody (e : FormTailElement) : Except Err FunFormBody :=
  match e with
  | FormTailElement.simple SimpleValue.empty => Except.ok FunFormBody.empty
  | FormTailElement.simple (SimpleValue.prim p) => Except.ok (FunFormBody.prim p)
  | FormTailElement.simple (SimpleValue.typeKeyword k) => Except.ok (FunFormBody.typeKeyword k)
  | FormTailElement.simple (SimpleValue.valueSymbol s) => Except.ok (FunFormBody.valueSymbol s)
  | FormTailElement.simple (SimpleValue.typeSymbol s) => Except.ok (FunFormBody.typeSymbol s)
  | FormTailElement.form g =>
    match TypeForm.fromForm g with
    | Except.ok tf => Except.ok (FunFormBody.typeForm tf)
    | Except.error _ =>
      match ProdForm.fromForm g with
      | Except.ok pf => Except.ok (FunFormBody.prodForm pf)
      | Except.error _ =>
        match LetForm.fromForm g with
        | Except.ok lf => Except.ok (FunFormBody.letForm lf)
        | Except.error _ =>
          match CaseForm.fromForm g with
          | Except.ok cf => Except.ok (FunFormBody.caseForm cf)
          | Except.error _ =>
            match AppForm.fromForm g with
            | Except.ok af => Except.ok (FunFormBody.appForm af)
            | Except.error _ =>
              Except.error
                { kind := ErrKind.syntactic,
                  desc := "expected a type form, a let form or an application form" }
  | _ => Except.error { kind := ErrKind.syntactic, desc := "unexpected function body" }

/-- `FunForm::from_form` (embedded from `form/fun_form.rs`). -/
def FunForm.fromForm (f : Form) : Except Err FunForm :=
  if f.name ≠ "fun" then
    Except.error { kind := ErrKind.syntactic, desc := "expected a fun keyword" }
  else
    match f.tail with
    | [e0, e1] =>
      match funParams e0 with
      | Except.ok ps =>
        match funBody e1 with
        | Except.ok b => Except.ok { params := ps, body := b }
        | Except.error e => Except.error e
      | Except.error e => Except.error e
    | _ =>
      Except.error
        { kind := ErrKind.syntactic,
          desc := "expected a symbol or form and a primitive, or a symbol or a form" }

/-- `FunForm::params_to_string`. -/
def FunForm.paramsToStr (f : FunForm) : String :=
  match f.params with
  | [p] => p.toStr
  | [] => "()"
  | ps => "(prod " ++ joinSp (ps.map FunFormParam.toStr) ++ ")"

/-- `FunForm::to_string`: `(fun {params} {body})`. -/
def FunForm.toStr (f : FunForm) : String :=
  "(fun " ++ f.paramsToStr ++ " " ++ f.body.toStr ++ ")"

/-- `FunForm::from_str`. -/
def FunForm.fromStr (s : String) : Except Err FunForm :=
  match Form.fromStr s with
  | Except.ok f => FunForm.fromForm f
  | Except.error e => Except.error e

mutual
/-- Modelled from the spec: `FunAppForm` (absent
`value/form/fun_app.rs`) — a function-application form: a name applied
to parameters. -/
inductive FunAppForm where
  | mk : String → List FunAppFormParam → FunAppForm
/-- Modelled from the spec: a `FunAppForm` parameter — the empty
literal, a primitive, a symbol (carried as raw text, qualified or
not), or a nested application. -/
inductive FunAppFormParam where
  | empty : FunAppFormParam
  | prim : String → FunAppFormParam
  | symbol : String → FunAppFormParam
  | funApp : FunAppForm → FunAppFormParam
end

/-- The name of a function application. -/
def FunAppForm.name : FunAppForm → String
  | FunAppForm.mk n _ => n

/-- The parameters of a function application. -/
def FunAppForm.params : FunAppForm → List FunAppFormParam
  | FunAppForm.mk _ ps => ps

mutual
/-- Modelled from the spec: build a `FunAppForm` from a generic form —
the head (a symbol or keyword word) becomes the name, the tail the
parameters. -/
def FunAppForm.fromForm : Form → Except Err FunAppForm
  | Form.mk h t =>
    match h with
    | SimpleValue.valueSymbol s =>
      match FunAppForm.paramsFrom t with
      | Except.ok ps => Except.ok (FunAppForm.mk s ps)
      | Except.error e => Except.error e
    | _ => Except.error { kind := ErrKind.semantic, desc := "expected a function application" }
/-- Modelled from the spec: classify tail elements as application
parameters. -/
def FunAppForm.paramsFrom : List FormTailElement → Except Err (List FunAppFormParam)
  | [] => Except.ok []
  | FormTailElement.simple sv :: es =>
    (match sv with
    | SimpleValue.empty =>
      match FunAppForm.paramsFrom es with
      | Except.ok rest => Except.ok (FunAppFormParam.empty :: rest)
      | Except.error e => Except.error e
    | SimpleValue.prim s =>
      match FunAppForm.paramsFrom es with
      | Except.ok rest => Except.ok (FunAppFormParam.prim s :: rest)
      | Except.error e => Except.error e
    | SimpleValue.typeKeyword s =>
      match FunAppForm.paramsFrom es with
      | Except.ok rest => Except.ok (FunAppFormParam.symbol s :: rest)
      | Except.error e => Except.error e
    | SimpleValue.valueSymbol s =>
      match FunAppForm.paramsFrom es with
      | Except.ok rest => Except.ok (FunAppFormParam.symbol s :: rest)
      | Except.error e => Except.error e
    | SimpleValue.typeSymbol s =>
      match FunAppForm.paramsFrom es with
      | Except.ok rest => Except.ok (FunAppFormParam.symbol s :: rest)
      | Except.error e => Except.error e
    | SimpleValue.typePathSymbol s =>
      match FunAppForm.paramsFrom es with
      | Except.ok rest => Except.ok (FunAppFormParam.symbol s :: rest)
      | Except.error e => Except.error e)
  | FormTailElement.form g :: es =>
    match FunAppForm.fromForm g with
    | Except.ok fa =>
      match FunAppForm.paramsFrom es with
      | Except.ok rest => Except.ok (FunAppFormParam.funApp fa :: rest)
      | Except.error e => Except.error e
    | Except.error e => Except.error e
end

/-- `AttrsForm`: `(attrs name (prod symbols...))`. -/
structure AttrsForm where
  name : String
  values : List String
deriving DecidableEq, Repr

/-- The value loop of `AttrsForm::from_fun_app`: each product element
must be a symbol. -/
def attrsValuesFrom : List FunAppFormParam → Except Err (List String)
  | [] => Except.ok []
  | FunAppFormParam.symbol s :: rest =>
    match attrsValuesFrom rest with
    | Except.ok vs => Except.ok (s :: vs)
    | Except.error e => Except.error e
  | _ :: _ => Except.error { kind := ErrKind.semantic, desc := "expected a symbol" }

/-- `AttrsForm::from_fun_app` (embedded from `value/form/attrs.rs`).
Every rejection in that file is a `SemanticError`. -/
def AttrsForm.fromFunApp (funApp : FunAppForm) : Except Err AttrsForm :=
  if funApp.name ≠ "attrs" then
    Except.error { kind := ErrKind.semantic, desc := "expected a attrs keyword" }
  else
    match funApp.params with
    | [p0, p1] =>
      match p0 with
      | FunAppFormParam.symbol nm =>
        (match p1 with
        | FunAppFormParam.funApp inner =>
          if inner.name ≠ "prod" then
            Except.error { kind := ErrKind.semantic, desc := "expected a product of symbols" }
          else
            match attrsValuesFrom inner.params with
            | Except.ok vs => Except.ok { name := nm, values := vs }
            | Except.error e => Except.error e
        | _ => Except.error { kind := ErrKind.semantic, desc := "expected a product of symbols" })
      | _ => Except.error { kind := ErrKind.semantic, desc := "expected a symbol" }
    | _ =>
      Except.error { kind := ErrKind.semantic, desc := "expected a name and a product of symbols" }

/-- `AttrsForm::to_string`: `(attrs {name} (prod {values}))`. -/
def AttrsForm.toStr (a : AttrsForm) : String :=
  "(attrs " ++ a.name ++ " (prod " ++ joinSp a.values ++ "))"

/-- `AttrsForm::from_str`: lex, group into a function application,
validate. -/
def AttrsForm.fromStr (s : String) : Except Err AttrsForm :=
  match Form.fromStr s with
  | Except.ok f =>
    match FunAppForm.fromForm f with
    | Except.ok fa => AttrsForm.fromFunApp fa
    | Except.error e => Except.error e
  | Except.error e => Except.error e

/-- The primitive `Type` tag of a `Value` (`typing.rs`, as exercised by
the `values.rs` tests): literal kinds, `Builtin` for keywords, and
`App` built by recursively typing children. -/
inductive Ty where
  | empty
  | uint
  | int
  | float
  | char
  | string
  | type
  | builtin
  | unknown
  | app : List Ty → Ty

/-- `Value`: a tree node carrying an optional name, an optional
primitive value, an inferred typing, ordered children and the
originating file of its token. -/
inductive Value where
  | mk : Option String → Option String → Option Ty → List Value → Option String → Value

/-- The name of a value. -/
def Value.name : Value → Option String
  | Value.mk n _ _ _ _ => n

/-- The primitive value of a value. -/
def Value.pval : Value → Option String
  | Value.mk _ p _ _ _ => p

/-- The typing of a value. -/
def Value.typing : Value → Option Ty
  | Value.mk _ _ ty _ _ => ty

/-- The children of a value. -/
def Value.children : Value → List Value
  | Value.mk _ _ _ cs _ => cs

/-- The originating file of a value's token. -/
def Value.file : Value → Option String
  | Value.mk _ _ _ _ f => f

/-- Modelled from the spec: the `Value::new_*` constructors for atomic
tokens (absent `value.rs`) — each atomic token becomes a leaf with its
primitive `Type` assigned by lexical kind (`new_empty`, `new_keyword`,
`new_uint`, `new_int`, `new_float`, `new_char`, `new_string`,
`new_symbol`). -/
def Value.newAtom (t : Token) : Except Err Value :=
  match t.kind with
  | TokKind.emptyLiteral => Except.ok (Value.mk none (some "()") (some Ty.empty) [] t.file)
  | TokKind.keyword => Except.ok (Value.mk (some t.text) none (some Ty.builtin) [] t.file)
  | TokKind.uintLiteral => Except.ok (Value.mk none (some t.text) (some Ty.uint) [] t.file)
  | TokKind.intLiteral => Except.ok (Value.mk none (some t.text) (some Ty.int) [] t.file)
  | TokKind.floatLiteral => Except.ok (Value.mk none (some t.text) (some Ty.float) [] t.file)
  | TokKind.charLiteral => Except.ok (Value.mk none (some t.text) (some Ty.char) [] t.file)
  | TokKind.stringLiteral => Except.ok (Value.mk none (some t.text) (some Ty.string) [] t.file)
  | TokKind.valueSymbol => Except.ok (Value.mk (some t.text) none (some Ty.unknown) [] t.file)
  | TokKind.typeSymbol => Except.ok (Value.mk (some t.text) none (some Ty.type) [] t.file)
  | _ => Except.error { kind := ErrKind.parsing, desc := "unexpected token" }

mutual
/-- Modelled from the spec: the recursive grouping inside
`Value::new_app` — parse one value from a token run (fuel-bounded). -/
def parseVOne : Nat → List Token → Option (Value × List Token)
  | 0, _ => none
  | Nat.succ _, [] => none
  | Nat.succ fuel, t :: ts =>
    match t.kind with
    | TokKind.formStart =>
      match parseVMany fuel ts with
      | some (cs, rest) =>
        some
          (Value.mk
            (match cs with
             | [] => none
             | c :: _ => c.name)
            none
            (some (Ty.app (cs.map (fun c => c.typing.getD Ty.unknown))))
            cs t.file, rest)
      | none => none
    | TokKind.formEnd => none
    | TokKind.comment => none
    | TokKind.docComment => none
    | _ =>
      match Value.newAtom t with
      | Except.ok v => some (v, ts)
      | Except.error _ => none
/-- Modelled from the spec: parse child values until the closing
paren. -/
def parseVMany : Nat → List Token → Option (List Value × List Token)
  | 0, _ => none
  | Nat.succ _, [] => none
  | Nat.succ fuel, t :: ts =>
    if t.kind = TokKind.formEnd then some ([], ts)
    else
      match parseVOne fuel (t :: ts) with
      | some (v, rest) =>
        match parseVMany fuel rest with
        | some (vs, rest2) => some (v :: vs, rest2)
        | none => none
      | none => none
end

/-- Modelled from the spec: `Value::new_app` — reduce one buffered
balanced token run into a single application value whose typing is
`Type::App([child types...])` and whose name is the head child's
name. -/
def Value.newApp (run : List Token) : Except Err Value :=
  match parseVOne (run.length * 2 + 2) run with
  | some (v, []) => Except.ok v
  | _ => Except.error { kind := ErrKind.parsing, desc := "malformed form" }

/-- The linear scan of `Values::from_str` (embedded from `values.rs`
lines 41-141): accumulated top-level values, the buffered tokens of the
open form, and the nesting counter.  The final state is returned; the
caller projects the values (the buffer of an unclosed trailing form is
discarded, as in the source). -/
def scanValues : List Value → List Token → Int → List Token → Except Err (List Value × List Token × Int)
  | vals, buf, cnt, [] => Except.ok (vals, buf, cnt)
  | vals, buf, cnt, t :: ts =>
    match t.kind with
    | TokKind.comment =>
      Except.error { kind := ErrKind.parsing, desc := "unexpected comment token" }
    | TokKind.docComment =>
      Except.error { kind := ErrKind.parsing, desc := "unexpected doc comment token" }
    | TokKind.formStart => scanValues vals (buf ++ [t]) (cnt + 1) ts
    | TokKind.formEnd =>
      if cnt - 1 = 0 then
        match Value.newApp (buf ++ [t]) with
        | Except.ok v => scanValues (vals ++ [v]) [] (cnt - 1) ts
        | Except.error e => Except.error e
      else scanValues vals (buf ++ [t]) (cnt - 1) ts
    | _ =>
      if cnt ≠ 0 then scanValues vals (buf ++ [t]) cnt ts
      else
        match Value.newAtom t with
        | Except.ok v => scanValues (vals ++ [v]) buf cnt ts
        | Except.error e => Except.error e

/-- The scan applied to a token stream from the initial state,
projecting the accumulated top-level values. -/
def valuesFromTokens (ts : List Token) : Except Err (List Value) :=
  match scanValues [] [] 0 ts with
  | Except.ok (vals, _, _) => Except.ok vals
  | Except.error e => Except.error e

/-- `Values::from_str`: lex, filter out comment and doc-comment tokens,
then run the linear scan. -/
def Values.fromStr (s : String) : Except Err (List Value) :=
  valuesFromTokens (filterComments (tokenize s))

/-- `STElement`: one recorded occurrence of a named definition — name,
value snapshot and originating file (`symbol_table.rs` lines 9-28). -/
structure STElement where
  name : Option String
  value : Value
  file : Option String

/-- `STElement::from_value`. -/
def STElement.fromValue (v : Value) : STElement :=
  { name := v.name, value := v, file := v.file }

/-- Lexicographic comparison of character lists by character code
(the `Ord` of `BTreeMap`/`BTreeSet` keys). -/
def charsLt : List Char → List Char → Bool
  | [], [] => false
  | [], _ :: _ => true
  | _ :: _, [] => false
  | a :: as, b :: bs =>
    if a.toNat < b.toNat then true
    else if b.toNat < a.toNat then false
    else charsLt as bs

/-- Lexicographic string comparison. -/
def strLt (a b : String) : Bool :=
  charsLt a.data b.data

/-- Ordered insertion into a `BTreeSet<String>` (sorted, deduplicated
list). -/
def insSet (x : String) : List String → List String
  | [] => [x]
  | y :: ys =>
    if x = y then y :: ys
    else if strLt x y then x :: y :: ys
    else y :: insSet x ys

/-- `BTreeMap<String, Vec<STElement>>` entry-or-append: push onto the
existing vector, or insert a singleton (sorted association list). -/
def insMap (k : String) (e : STElement) : List (String × List STElement) → List (String × List STElement)
  | [] => [(k, [e])]
  | (k2, es) :: rest =>
    if k = k2 then (k2, es ++ [e]) :: rest
    else if strLt k k2 then (k, [e]) :: (k2, es) :: rest
    else (k2, es) :: insMap k e rest

/-- The keys of a map, in order. -/
def mapKeys (m : List (String × List STElement)) : List String :=
  m.map (fun p => p.1)

/-- Look up a key in a map. -/
def mapFind (k : String) : List (String × List STElement) → Option (List STElement)
  | [] => none
  | (k2, es) :: rest => if k = k2 then some es else mapFind k rest

/-- `SymbolTable` (embedded from `symbol_table.rs` lines 30-60):
per-category definition-name sets, name → occurrence maps, and the
singleton main slots. -/
structure SymbolTable where
  files : List String := []
  impPaths : List String := []
  expDefs : List String := []
  defTypes : List String := []
  defPrims : List String := []
  defSums : List String := []
  defProds : List String := []
  defSigs : List String := []
  defFuns : List String := []
  defApps : List String := []
  defAttrs : List String := []
  imports : List (String × List STElement) := []
  exports : List (String × List STElement) := []
  types : List (String × List STElement) := []
  prims : List (String × List STElement) := []
  sums : List (String × List STElement) := []
  prods : List (String × List STElement) := []
  sigs : List (String × List STElement) := []
  funs : List (String × List STElement) := []
  apps : List (String × List STElement) := []
  attrs : List (String × List STElement) := []
  mainType : Option STElement := none
  mainSig : Option STElement := none
  mainFun : Option STElement := none
  mainApp : Option STElement := none
  mainAttrs : Option STElement := none

/-- The empty symbol table (`SymbolTable::new`). -/
def SymbolTable.new : SymbolTable := {}

/-- Modelled from the spec: the `Keyword` enum of `syntax.rs` (absent),
with the variants matched in `symbol_table.rs`. -/
inductive Keyword where
  | imp
  | exp
  | deftype
  | defsig
  | defprim
  | defsum
  | defprod
  | defun
  | defattrs
  | defGeneric
  | typeK
  | sigK
  | primK
  | sumK
  | prodK
  | funK
  | appK
  | attrsK
  | letK
  | caseK
deriving DecidableEq, Repr

/-- Modelled from the spec: `Keyword::from_str` — recognize one of the
reserved keywords. -/
def Keyword.fromStr (s : String) : Option Keyword :=
  if s = "import" then some Keyword.imp
  else if s = "export" then some Keyword.exp
  else if s = "deftype" then some Keyword.deftype
  else if s = "defsig" then some Keyword.defsig
  else if s = "defprim" then some Keyword.defprim
  else if s = "defsum" then some Keyword.defsum
  else if s = "defprod" then some Keyword.defprod
  else if s = "defun" then some Keyword.defun
  else if s = "defattrs" then some Keyword.defattrs
  else if s = "def" then some Keyword.defGeneric
  else if s = "type" then some Keyword.typeK
  else if s = "sig" then some Keyword.sigK
  else if s = "prim" then some Keyword.primK
  else if s = "sum" then some Keyword.sumK
  else if s = "prod" then some Keyword.prodK
  else if s = "fun" then some Keyword.funK
  else if s = "app" then some Keyword.appK
  else if s = "attrs" then some Keyword.attrsK
  else if s = "let" then some Keyword.letK
  else if s = "case" then some Keyword.caseK
  else none

/-- The outcome of processing: `none` models a Rust panic (unguarded
index/unwrap), `some (Except.error e)` a returned error, and
`some (Except.ok st)` success. -/
def POut := Option (Except Err SymbolTable)

/-- The `Keyword::Import` arm of `SymbolTable::from_values`
(`symbol_table.rs` lines 80-90): `value.children[1]` and
`name.unwrap()` unguarded. -/
def handleImport (st : SymbolTable) (v : Value) : Option (Except Err SymbolTable) :=
  match v.children.get? 1 with
  | none => none
  | some c =>
    match c.name with
    | none => none
    | some arg =>
      let stEl := STElement.fromValue v
      some (Except.ok
        { st with impPaths := insSet arg st.impPaths, imports := insMap arg stEl st.imports })

/-- The per-symbol loop of the `Keyword::Export` arm: each product
child is registered as an exported name with its own `STElement`
snapshot of the export target. -/
def exportLoop (val1 : Value) : SymbolTable → List Value → Option SymbolTable
  | st, [] => some st
  | st, child :: rest =>
    match child.name with
    | none => none
    | some arg =>
      let stEl := STElement.fromValue val1
      exportLoop val1
        { st with expDefs := insSet arg st.expDefs, exports := insMap arg stEl st.exports } rest

/-- The `Keyword::Export` arm (`symbol_table.rs` lines 91-121): the
target `value.children[1]` is a product of ≥ 2 symbols (children index
1 onward registered individually) or a single named value. -/
def handleExport (st : SymbolTable) (v : Value) : Option (Except Err SymbolTable) :=
  match v.children.get? 1 with
  | none => none
  | some val1 =>
    if val1.children.length > 1 then
      match exportLoop val1 st (val1.children.drop 1) with
      | none => none
      | some st2 => some (Except.ok st2)
    else
      match val1.name with
      | none => none
      | some arg =>
        let stEl := STElement.fromValue val1
        some (Except.ok
          { st with expDefs := insSet arg st.expDefs, exports := insMap arg stEl st.exports })

/-- The `Keyword::Deftype` arm (`symbol_table.rs` lines 122-143),
including the `Main` uniqueness check. -/
def handleDeftype (st : SymbolTable) (v : Value) : Option (Except Err SymbolTable) :=
  match v.children.get? 1 with
  | none => none
  | some c =>
    match c.name with
    | none => none
    | some arg =>
      let stEl := STElement.fromValue v
      let st2 := { st with defTypes := insSet arg st.defTypes, types := insMap arg stEl st.types }
      if arg = "Main" then
        if st.mainType.isSome then
          some (Except.error { kind := ErrKind.semantic, desc := "duplicate Main type" })
        else some (Except.ok { st2 with mainType := some stEl })
      else some (Except.ok st2)

/-- The `Keyword::Defsig` arm (`symbol_table.rs` lines 144-165),
including the `main` uniqueness check. -/
def handleDefsig (st : SymbolTable) (v : Value) : Option (Except Err SymbolTable) :=
  match v.children.get? 1 with
  | none => none
  | some c =>
    match c.name with
    | none => none
    | some arg =>
      let stEl := STElement.fromValue v
      let st2 := { st with defSigs := insSet arg st.defSigs, sigs := insMap arg stEl st.sigs }
      if arg = "main" then
        if st.mainSig.isSome then
          some (Except.error { kind := ErrKind.semantic, desc := "duplicate main signature" })
        else some (Except.ok { st2 with mainSig := some stEl })
      else some (Except.ok st2)

/-- The `Keyword::Defprim` arm (`symbol_table.rs` lines 166-176). -/
def handleDefprim (st : SymbolTable) (v : Value) : Option (Except Err SymbolTable) :=
  match v.children.get? 1 with
  | none => none
  | some c =>
    match c.name with
    | none => none
    | some arg =>
      let stEl := STElement.fromValue v
      some (Except.ok
        { st with defPrims := insSet arg st.defPrims, prims := insMap arg stEl st.prims })

/-- The `Keyword::Defsum` arm (`symbol_table.rs` lines 177-187). -/
def handleDefsum (st : SymbolTable) (v : Value) : Option (Except Err SymbolTable) :=
  match v.children.get? 1 with
  | none => none
  | some c =>
    match c.name with
    | none => none
    | some arg =>
      let stEl := STElement.fromValue v
      some (Except.ok
        { st with defSums := insSet arg st.defSums, sums := insMap arg stEl st.sums })

/-- The `Keyword::Defprod` arm (`symbol_table.rs` lines 188-198). -/
def handleDefprod (st : SymbolTable) (v : Value) : Option (Except Err SymbolTable) :=
  match v.children.get? 1 with
  | none => none
  | some c =>
    match c.name with
    | none => none
    | some arg =>
      let stEl := STElement.fromValue v
      some (Except.ok
        { st with defProds := insSet arg st.defProds, prods := insMap arg stEl st.prods })

/-- The `Keyword::Defun` arm (`symbol_table.rs` lines 199-220),
including the `main` uniqueness check. -/
def handleDefun (st : SymbolTable) (v : Value) : Option (Except Err SymbolTable) :=
  match v.children.get? 1 with
  | none => none
  | some c =>
    match c.name with
    | none => none
    | some arg =>
      let stEl := STElement.fromValue v
      let st2 := { st with defFuns := insSet arg st.defFuns, funs := insMap arg stEl st.funs }
      if arg = "main" then
        if st.mainFun.isSome then
          some (Except.error { kind := ErrKind.semantic, desc := "duplicate main function" })
        else some (Except.ok { st2 with mainFun := some stEl })
      else some (Except.ok st2)

/-- The `Keyword::Defattrs` arm (`symbol_table.rs` lines 221-242),
including the `main` uniqueness check. -/
def handleDefattrs (st : SymbolTable) (v : Value) : Option (Except Err SymbolTable) :=
  match v.children.get? 1 with
  | none => none
  | some c =>
    match c.name with
    | none => none
    | some arg =>
      let stEl := STElement.fromValue v
      let st2 := { st with defAttrs := insSet arg st.defAttrs, attrs := insMap arg stEl st.attrs }
      if arg = "main" then
        if st.mainAttrs.isSome then
          some (Except.error { kind := ErrKind.semantic, desc := "duplicate main attributes" })
        else some (Except.ok { st2 with mainAttrs := some stEl })
      else some (Except.ok st2)

/-- The keyword-tag dispatch of the 2-child generic `def` spec
(`symbol_table.rs` lines 268-394). -/
def defDispatch (st : SymbolTable) (arg : String) (stEl : STElement) (kw : Keyword) :
    Option (Except Err SymbolTable) :=
  match kw with
  | Keyword.typeK =>
    let st2 := { st with defTypes := insSet arg st.defTypes, types := insMap arg stEl st.types }
    if arg = "Main" then
      if st.mainType.isSome then
        some (Except.error { kind := ErrKind.semantic, desc := "duplicate Main type" })
      else some (Except.ok { st2 with mainType := some stEl })
    else some (Except.ok st2)
  | Keyword.sigK =>
    let st2 := { st with defSigs := insSet arg st.defSigs, sigs := insMap arg stEl st.sigs }
    if arg = "main" then
      if st.mainSig.isSome then
        some (Except.error { kind := ErrKind.semantic, desc := "duplicate main signature" })
      else some (Except.ok { st2 with mainSig := some stEl })
    else some (Except.ok st2)
  | Keyword.primK =>
    some (Except.ok
      { st with defPrims := insSet arg st.defPrims, prims := insMap arg stEl st.prims })
  | Keyword.sumK =>
    some (Except.ok
      { st with defSums := insSet arg st.defSums, sums := insMap arg stEl st.sums })
  | Keyword.prodK =>
    some (Except.ok
      { st with defProds := insSet arg st.defProds, prods := insMap arg stEl st.prods })
  | Keyword.funK =>
    let st2 := { st with defFuns := insSet arg st.defFuns, funs := insMap arg stEl st.funs }
    if arg = "main" then
      if st.mainFun.isSome then
        some (Except.error { kind := ErrKind.semantic, desc := "duplicate main function" })
      else some (Except.ok { st2 with mainFun := some stEl })
    else some (Except.ok st2)
  | Keyword.appK =>
    let st2 := { st with defApps := insSet arg st.defApps, apps := insMap arg stEl st.apps }
    if arg = "main" then
      if st.mainApp.isSome then
        some (Except.error { kind := ErrKind.semantic, desc := "duplicate main application" })
      else some (Except.ok { st2 with mainApp := some stEl })
    else some (Except.ok st2)
  | Keyword.attrsK =>
    let st2 := { st with defAttrs := insSet arg st.defAttrs, attrs := insMap arg stEl st.attrs }
    if arg = "main" then
      if st.mainAttrs.isSome then
        some (Except.error { kind := ErrKind.semantic, desc := "duplicate main attributes" })
      else some (Except.ok { st2 with mainAttrs := some stEl })
    else some (Except.ok st2)
  | _ => some (Except.error { kind := ErrKind.semantic, desc := "unexpected keyword" })

/-- The `Keyword::Def` arm (`symbol_table.rs` lines 243-409): exactly 3
children; a 2-child spec dispatches on its keyword tag; a 1-child spec
registers `value.name` (the outer value's own name) as a primitive
definition; anything else is an invalid definition. -/
def handleDef (st : SymbolTable) (v : Value) : Option (Except Err SymbolTable) :=
  if v.children.length ≠ 3 then
    some (Except.error { kind := ErrKind.semantic, desc := "invalid definition" })
  else
    match v.children.get? 1 with
    | none => none
    | some c1 =>
      match c1.name with
      | none => none
      | some arg =>
        match v.children.get? 2 with
        | none => none
        | some argValue =>
          let stEl := STElement.fromValue v
          if argValue.children.length = 2 then
            match argValue.children.get? 0 with
            | none => none
            | some c0 =>
              match c0.name with
              | none =>
                some (Except.error { kind := ErrKind.semantic, desc := "expected a keyword" })
              | some kind =>
                match Keyword.fromStr kind with
                | none =>
                  some (Except.error { kind := ErrKind.semantic, desc := "unknown keyword" })
                | some kw => defDispatch st arg stEl kw
          else if argValue.children.length = 1 then
            match v.name with
            | none => none
            | some arg2 =>
              some (Except.ok
                { st with defPrims := insSet arg2 st.defPrims, prims := insMap arg2 stEl st.prims })
          else
            some (Except.error { kind := ErrKind.semantic, desc := "invalid definition" })

/-- One iteration of the `SymbolTable::from_values` loop
(`symbol_table.rs` lines 70-411): record the file, then dispatch when
the typing is a builtin-keyword application.  `none` models a panic
(`types[0]` on an empty `Type::App`, unguarded `children[1]` or
`name.unwrap()`). -/
def SymbolTable.step (st : SymbolTable) (v : Value) : Option (Except Err SymbolTable) :=
  let st1 :=
    match v.file with
    | some f => { st with files := insSet f st.files }
    | none => st
  match v.typing with
  | some (Ty.app ts) =>
    match ts with
    | [] => none
    | t0 :: _ =>
      match t0 with
      | Ty.builtin =>
        match v.name with
        | none => none
        | some nm =>
          match Keyword.fromStr nm with
          | none => some (Except.error { kind := ErrKind.semantic, desc := "unknown keyword" })
          | some kw =>
            match kw with
            | Keyword.imp => handleImport st1 v
            | Keyword.exp => handleExport st1 v
            | Keyword.deftype => handleDeftype st1 v
            | Keyword.defsig => handleDefsig st1 v
            | Keyword.defprim => handleDefprim st1 v
            | Keyword.defsum => handleDefsum st1 v
            | Keyword.defprod => handleDefprod st1 v
            | Keyword.defun => handleDefun st1 v
            | Keyword.defattrs => handleDefattrs st1 v
            | Keyword.defGeneric => handleDef st1 v
            | _ => some (Except.ok st1)
      | _ => some (Except.ok st1)
  | _ => some (Except.ok st1)

/-- The `SymbolTable::from_values` loop over the remaining values. -/
def SymbolTable.run : SymbolTable → List Value → Option (Except Err SymbolTable)
  | st, [] => some (Except.ok st)
  | st, v :: vs =>
    match SymbolTable.step st v with
    | none => none
    | some (Except.error e) => some (Except.error e)
    | some (Except.ok st2) => SymbolTable.run st2 vs

/-- `SymbolTable::from_values`: the single aggregating pass. -/
def SymbolTable.fromValues (vs : List Value) : Option (Except Err SymbolTable) :=
  SymbolTable.run SymbolTable.new vs

/-- Parse a source string and build its symbol table, keeping only a
successfully built table. -/
def stTableOf (s : String) : Option SymbolTable :=
  match Values.fromStr s with
  | Except.ok vs =>
    match SymbolTable.fromValues vs with
    | some (Except.ok st) => some st
    | _ => none
  | Except.error _ => none

/-- Parse a source string and build its symbol table, keeping the full
outcome (`none` when parsing itself failed). -/
def stResultOf (s : String) : Option (Except Err SymbolTable) :=
  match Values.fromStr s with
  | Except.ok vs => SymbolTable.fromValues vs
  | Except.error _ => none

/-- The `(name, file)` projections of the `attrs["sum"]` entries of the
table built from a source string. -/
def attrsEntriesOf (s : String) : Option (List (Option String × Option String)) :=
  (stTableOf s).bind (fun st =>
    (mapFind "sum" st.attrs).map (fun es => es.map (fun e => (e.name, e.file))))

/-- Whether a main slot is filled in the table built from a source
string. -/
def mainSlotIsSet (s : String) (f : SymbolTable → Option STElement) : Option Bool :=
  (stTableOf s).map (fun st => (f st).isSome)

/-- Whether a scan outcome is one of the two comment-token parsing
errors of `Values::from_str`. -/
def isCommentError (r : Except Err (List Value)) : Bool :=
  match r with
  | Except.error e =>
    e.desc == "unexpected comment token" || e.desc == "unexpected doc comment token"
  | Except.ok _ => false

/-- The contribution of one token to the nesting counter. -/
def tokDelta (t : Token) : Int :=
  match t.kind with
  | TokKind.formStart => 1
  | TokKind.formEnd => -1
  | _ => 0

/-- The total nesting-counter change over a token run. -/
def deltaCount : List Token → Int
  | [] => 0
  | t :: ts => tokDelta t + deltaCount ts

/-- The nesting counter stays at least 1 throughout the run: the open
form started before `ts` is never closed. -/
def staysOpen (cnt : Int) (ts : List Token) : Prop :=
  ∀ n, n ≤ ts.length → 1 ≤ cnt + deltaCount (ts.take n)

/-- No comment or doc-comment token occurs in the run. -/
def noCommentToks (ts : List Token) : Prop :=
  ∀ t ∈ ts, t.kind ≠ TokKind.comment ∧ t.kind ≠ TokKind.docComment

/-- A value that is a top-level `main` function definition: a
builtin-keyword application of `defun` whose second child is named
`main`, or a generic `def` of `main` whose 3rd child is a 2-child spec
tagged `fun`. -/
def IsMainFunDef (v : Value) : Prop :=
  (v.name = some "defun" ∧
    (∃ ts, v.typing = some (Ty.app (Ty.builtin :: ts))) ∧
    (∃ c, v.children.get? 1 = some c ∧ c.name = some "main"))
  ∨
  (v.name = some "def" ∧
    (∃ ts, v.typing = some (Ty.app (Ty.builtin :: ts))) ∧
    v.children.length = 3 ∧
    (∃ c, v.children.get? 1 = some c ∧ c.name = some "main") ∧
    (∃ c2, v.children.get? 2 = some c2 ∧ c2.children.length = 2 ∧
      (∃ c0, c2.children.get? 0 = some c0 ∧ c0.name = some "fun")))

/-- A product element that is a qualified (value or type) symbol. -/
def prodValQualifiedSym (v : ProdFormValue) : Prop :=
  (∃ s, v = ProdFormValue.valueSymbol s ∧ isQualified s = true) ∨
  (∃ s, v = ProdFormValue.typeSymbol s ∧ isQualified s = true)

/-- A params-position element of a `fun` form in which some parameter
carries the qualifying separator. -/
def paramQualified (e0 : FormTailElement) : Prop :=
  (∃ s, e0 = FormTailElement.simple (SimpleValue.valueSymbol s) ∧ isQualified s = true) ∨
  (∃ s, e0 = FormTailElement.simple (SimpleValue.typeSymbol s) ∧ isQualified s = true) ∨
  (∃ g p, e0 = FormTailElement.form g ∧ ProdForm.fromForm g = Except.ok p ∧
    ∃ v ∈ p.values, prodValQualifiedSym v)

/-- A simple value in type-name position carrying the qualifying
separator (the two shapes the lexical classification can give a
separator-bearing word). -/
def typeNameQualified (sv : SimpleValue) : Prop :=
  (∃ s, sv = SimpleValue.valueSymbol s) ∨ (∃ s, sv = SimpleValue.typePathSymbol s)

/-- C5: for each of the listed literal source strings accepted by
`FunForm::from_str`, `TypeForm::from_str`, `SigForm::from_str` and
`AttrsForm::from_str`, serializing the parsed node with `to_string`
reproduces the input string exactly. -/
theorem c5_roundtrip_literals :
    (FunForm.fromStr "(fun () x)").map FunForm.toStr = Except.ok "(fun () x)" ∧
    (FunForm.fromStr "(fun x ())").map FunForm.toStr = Except.ok "(fun x ())" ∧
    (FunForm.fromStr "(fun x moduleX.x)").map FunForm.toStr = Except.ok "(fun x moduleX.x)" ∧
    (FunForm.fromStr "(fun (prod a b c d) (math.+ (prod a b 10 (math.* (prod c d 10)))))").map
        FunForm.toStr
      = Except.ok "(fun (prod a b c d) (math.+ (prod a b 10 (math.* (prod c d 10)))))" ∧
    (TypeForm.fromStr "(type T Empty)").map TypeForm.toStr = Except.ok "(type T Empty)" ∧
    (TypeForm.fromStr "(type T Atomic)").map TypeForm.toStr = Except.ok "(type T Atomic)" ∧
    (TypeForm.fromStr "(type T Char)").map TypeForm.toStr = Except.ok "(type T Char)" ∧
    (TypeForm.fromStr "(type T X)").map TypeForm.toStr = Except.ok "(type T X)" ∧
    (TypeForm.fromStr "(type T (Fun moduleX.X Char (Pair A B)))").map TypeForm.toStr
      = Except.ok "(type T (Fun moduleX.X Char (Pair A B)))" ∧
    (SigForm.fromStr "(sig t Char)").map SigForm.toStr = Except.ok "(sig t Char)" ∧
    (AttrsForm.fromStr "(attrs x (prod attr))").map AttrsForm.toStr
      = Except.ok "(attrs x (prod attr))" :=
  ⟨rfl, rfl, rfl, rfl, rfl, rfl, rfl, rfl, rfl, rfl, rfl⟩

/-- C6: building the symbol table from `"(export (prod a b c))"`
succeeds with `exp_defs = {a, b, c}`, with the `exports` map holding
exactly the three keys `a`, `b`, `c`, each registered with its own
single `STElement`. -/
theorem c6_export_prod :
    (stTableOf "(export (prod a b c))").map (fun st => (st.expDefs, mapKeys st.exports))
      = some (["a", "b", "c"], ["a", "b", "c"]) ∧
    (stTableOf "(export (prod a b c))").bind
        (fun st => (mapFind "a" st.exports).map List.length) = some 1 ∧
    (stTableOf "(export (prod a b c))").bind
        (fun st => (mapFind "b" st.exports).map List.length) = some 1 ∧
    (stTableOf "(export (prod a b c))").bind
        (fun st => (mapFind "c" st.exports).map List.length) = some 1 :=
  ⟨rfl, rfl, rfl, rfl⟩

/-- C1 counterexample: the shorthand `"(defattrs sum (prod attr1 attr2
attr3))"` and the generic `"(def sum (attrs (prod attr1 attr2
attr3)))"` do not yield identical `attrs["sum"]` entries: the
`STElement` name is `defattrs` for the first and `def` for the
second. -/
theorem c1_counterexample_entries_differ :
    attrsEntriesOf "(defattrs sum (prod attr1 attr2 attr3))" = some [(some "defattrs", none)] ∧
    attrsEntriesOf "(def sum (attrs (prod attr1 attr2 attr3)))" = some [(some "def", none)] ∧
    attrsEntriesOf "(defattrs sum (prod attr1 attr2 attr3))"
      ≠ attrsEntriesOf "(def sum (attrs (prod attr1 attr2 attr3)))" :=
  ⟨rfl, rfl, by decide⟩

/-- C1 amended: both sources register the same `def_attrs` set `{sum}`
and the same single `attrs` key `sum`, each with one entry whose file
is absent; but the entries are not identical — the `STElement` name
(and value snapshot) is the `defattrs` application for the shorthand
and the `def` application for the generic form. -/
theorem c1_defattrs_vs_def_same_sets :
    (stTableOf "(defattrs sum (prod attr1 attr2 attr3))").map SymbolTable.defAttrs
      = some ["sum"] ∧
    (stTableOf "(def sum (attrs (prod attr1 attr2 attr3)))").map SymbolTable.defAttrs
      = some ["sum"] ∧
    (stTableOf "(defattrs sum (prod attr1 attr2 attr3))").map (fun st => mapKeys st.attrs)
      = some ["sum"] ∧
    (stTableOf "(def sum (attrs (prod attr1 attr2 attr3)))").map (fun st => mapKeys st.attrs)
      = some ["sum"] ∧
    attrsEntriesOf "(defattrs sum (prod attr1 attr2 attr3))" = some [(some "defattrs", none)] ∧
    attrsEntriesOf "(def sum (attrs (prod attr1 attr2 attr3)))" = some [(some "def", none)] :=
  ⟨rfl, rfl, rfl, rfl, rfl, rfl⟩

/-- C2: at the failing input `"(def x (f))"` (a generic definition
whose spec has exactly 1 child), the code registers the keyword string
`def` — the outer value's own name — into `def_prims`/`prims` instead
of the defined name `x` stated by the claim. -/
theorem c2_def_one_child_registers_keyword :
    (stTableOf "(def x (f))").map (fun st => (st.defPrims, mapKeys st.prims))
      = some (["def"], ["def"]) ∧
    (stTableOf "(def x (f))").map (fun st => (st.defPrims, mapKeys st.prims))
      ≠ some (["x"], ["x"]) :=
  ⟨rfl, by decide⟩

/-- C10: `SymbolTable::from_values` accesses `value.children[1]` and
`types[0]` without guarding: on the argument-less builtin application
parsed from `"(import)"`, and on the empty application parsed from
`"( )"` (whose typing is an empty `Type::App`), the pass panics
(modelled `none`) instead of returning a `SemanticError`. -/
theorem c10_unguarded_accesses_panic :
    (Values.fromStr "(import)").map List.length = Except.ok 1 ∧
    (Values.fromStr "(import)").toOption.bind SymbolTable.fromValues = none ∧
    (Values.fromStr "( )").map List.length = Except.ok 1 ∧
    (Values.fromStr "( )").toOption.bind SymbolTable.fromValues = none :=
  ⟨rfl, rfl, rfl, rfl⟩

/-- `Value::new_app` only ever fails with the malformed-form parsing
error. -/
theorem newApp_error_desc (run : List Token) (e : Err) :
    Value.newApp run = Except.error e → e.desc = "malformed form" := by
  intro h
  unfold Value.newApp at h
  split at h
  · exact absurd h (by simp)
  · simp only [Except.error.injEq] at h
    subst h
    rfl

/-- `Value::new_atom` only ever fails with the unexpected-token
parsing error. -/
theorem newAtom_error_desc (t : Token) (e : Err) :
    Value.newAtom t = Except.error e → e.desc = "unexpected token" := by
  intro h
  unfold Value.newAtom at h
  cases hk : t.kind <;> rw [hk] at h <;> simp only [Except.error.injEq] at h <;>
    first
      | (subst h; rfl)
      | exact absurd h (by simp)

/-- On a comment-free token run the scan loop never produces the
comment-token parsing errors. -/
theorem scan_no_comment_error (ts : List Token) :
    ∀ vals buf cnt, noCommentToks ts →
      ∀ e, scanValues vals buf cnt ts = Except.error e →
        e.desc ≠ "unexpected comment token" ∧ e.desc ≠ "unexpected doc comment token" := by
  induction ts with
  | nil =>
    intro vals buf cnt _ e h
    simp [scanValues] at h
  | cons t ts ih =>
    intro vals buf cnt hnc e h
    have hhead := hnc t (List.mem_cons_self t ts)
    have htail : noCommentToks ts := fun x hx => hnc x (List.mem_cons_of_mem t hx)
    rw [scanValues] at h
    cases hk : t.kind <;> rw [hk] at h
    case comment => exact absurd hk hhead.1
    case docComment => exact absurd hk hhead.2
    case formStart => exact ih _ _ _ htail e h
    case formEnd =>
      by_cases hc : cnt - 1 = 0
      · rw [if_pos hc] at h
        cases ha : Value.newApp (buf ++ [t]) with
        | ok v =>
          rw [ha] at h
          exact ih _ _ _ htail e h
        | error e2 =>
          rw [ha] at h
          simp only [Except.error.injEq] at h
          subst h
          have := newApp_error_desc _ _ ha
          constructor <;> (rw [this]; decide)
      · rw [if_neg hc] at h
        exact ih _ _ _ htail e h
    all_goals
      first
        | (by_cases hz : cnt ≠ 0
           · rw [if_pos hz] at h
             exact ih _ _ _ htail e h
           · rw [if_neg hz] at h
             cases ha : Value.newAtom t with
             | ok v =>
               rw [ha] at h
               exact ih _ _ _ htail e h
             | error e2 =>
               rw [ha] at h
               simp only [Except.error.injEq] at h
               subst h
               have := newAtom_error_desc _ _ ha
               constructor <;> (rw [this]; decide))

/-- After its upstream filter, `Values::from_str` can never hit the
comment-token error arms of the scan. -/
theorem fromStr_no_comment_error (s : String) : isCommentError (Values.fromStr s) = false := by
  unfold Values.fromStr valuesFromTokens
  have hnc : noCommentToks (filterComments (tokenize s)) := by
    intro t ht
    have := List.mem_filter.mp ht
    simpa using this.2
  cases h : scanValues [] [] 0 (filterComments (tokenize s)) with
  | ok st => simp [isCommentError]
  | error e =>
    have := scan_no_comment_error _ [] [] 0 hnc e h
    simp only [isCommentError]
    rw [Bool.or_eq_false_iff]
    constructor <;> simp [this.1, this.2]

/-- C8: `Values::from_str` strips comment and doc-comment tokens
before its linear scan, so for every input the comment-token
`ParsingError` branches inside the loop are unreachable; an input
consisting only of comments and doc-comments returns `Ok` with an
empty `Values`. -/
theorem c8_comment_arms_unreachable :
    (∀ s : String, isCommentError (Values.fromStr s) = false) ∧
    Values.fromStr "# comment\n#! doc comment" = Except.ok [] :=
  ⟨fromStr_no_comment_error, rfl⟩

/-- Processing a concatenation of token runs is processing the first
run and continuing from its final state. -/
theorem scan_append (xs : List Token) :
    ∀ ys vals buf cnt,
      scanValues vals buf cnt (xs ++ ys)
        = match scanValues vals buf cnt xs with
          | Except.ok (v, b, c) => scanValues v b c ys
          | Except.error e => Except.error e := by
  induction xs with
  | nil =>
    intro ys vals buf cnt
    simp [scanValues]
  | cons t xs ih =>
    intro ys vals buf cnt
    rw [List.cons_append, scanValues, scanValues]
    cases hk : t.kind
    case comment => rfl
    case docComment => rfl
    case formStart => exact ih ys vals (buf ++ [t]) (cnt + 1)
    case formEnd =>
      by_cases hc : cnt - 1 = 0
      · rw [if_pos hc, if_pos hc]
        cases ha : Value.newApp (buf ++ [t]) with
        | ok v => exact ih ys (vals ++ [v]) [] (cnt - 1)
        | error e => rfl
      · rw [if_neg hc, if_neg hc]
        exact ih ys vals (buf ++ [t]) (cnt - 1)
    all_goals
      first
        | (by_cases hz : cnt ≠ 0
           · rw [if_pos hz, if_pos hz]
             exact ih ys vals (buf ++ [t]) cnt
           · rw [if_neg hz, if_neg hz]
             cases ha : Value.newAtom t with
             | ok v => exact ih ys (vals ++ [v]) buf cnt
             | error e => rfl)

/-- Consequences of the counter staying at least 1 over a nonempty
run. -/
theorem staysOpen_head (cnt : Int) (t : Token) (ts : List Token)
    (h : staysOpen cnt (t :: ts)) :
    1 ≤ cnt ∧ 1 ≤ cnt + tokDelta t ∧ staysOpen (cnt + tokDelta t) ts := by
  refine ⟨?_, ?_, ?_⟩
  · have := h 0 (by simp)
    simpa [deltaCount] using this
  · have := h 1 (by simp)
    simpa [deltaCount] using this
  · intro n hn
    have := h (n + 1) (by simpa using Nat.succ_le_succ hn)
    simp only [List.take_succ_cons, deltaCount] at this
    omega

/-- While the nesting counter never returns to 0, the scan only
buffers: the accumulated values are unchanged and every token lands in
the form buffer. -/
theorem scan_buffers (ts : List Token) :
    ∀ vals buf cnt, noCommentToks ts → staysOpen cnt ts →
      scanValues vals buf cnt ts = Except.ok (vals, buf ++ ts, cnt + deltaCount ts) := by
  induction ts with
  | nil =>
    intro vals buf cnt _ _
    simp [scanValues, deltaCount]
  | cons t ts ih =>
    intro vals buf cnt hnc hso
    have hhead := hnc t (List.mem_cons_self t ts)
    have htail : noCommentToks ts := fun x hx => hnc x (List.mem_cons_of_mem t hx)
    obtain ⟨h1, h2, h3⟩ := staysOpen_head cnt t ts hso
    rw [scanValues]
    cases hk : t.kind
    case comment => exact absurd hk hhead.1
    case docComment => exact absurd hk hhead.2
    case formStart =>
      have hd : tokDelta t = 1 := by simp [tokDelta, hk]
      rw [hd] at h3
      rw [ih vals (buf ++ [t]) (cnt + 1) htail h3]
      simp [deltaCount, hd, List.append_assoc]
      omega
    case formEnd =>
      have hd : tokDelta t = -1 := by simp [tokDelta, hk]
      rw [hd] at h2 h3
      have hc : ¬(cnt - 1 = 0) := by omega
      rw [if_neg hc]
      have h3' : staysOpen (cnt - 1) ts := by
        intro n hn
        have := h3 n hn
        omega
      rw [ih vals (buf ++ [t]) (cnt - 1) htail h3']
      simp [deltaCount, hd, List.append_assoc]
      omega
    all_goals
      first
        | (have hd : tokDelta t = 0 := by simp [tokDelta, hk]
           rw [hd] at h3
           have hz : cnt ≠ 0 := by omega
           rw [if_pos hz]
           have h3' : staysOpen cnt ts := by simpa using h3
           rw [ih vals (buf ++ [t]) cnt htail h3']
           simp [deltaCount, hd, List.append_assoc]
           try omega)

/-- C9: the scan of `Values::from_str` never reports unbalanced
parentheses — appending a form-start token followed by any run that
never closes it leaves the result `Ok` with exactly the values of the
balanced prefix: the buffered tokens of the unclosed form are silently
discarded.  Concretely, `"(a b"` parses to `Ok` with no values. -/
theorem c9_unclosed_form_discarded :
    (∀ (ts1 ts2 : List Token) (vals1 : List Value) (buf1 : List Token),
      scanValues [] [] 0 ts1 = Except.ok (vals1, buf1, 0) →
      noCommentToks ts2 →
      staysOpen 1 ts2 →
      valuesFromTokens (ts1 ++ ({ kind := TokKind.formStart, text := "(" } : Token) :: ts2)
        = Except.ok vals1 ∧
      valuesFromTokens ts1 = Except.ok vals1) ∧
    Values.fromStr "(a b" = Except.ok [] := by
  constructor
  · intro ts1 ts2 vals1 buf1 h1 hnc hso
    have hbody :
        scanValues vals1 (buf1 ++ [({ kind := TokKind.formStart, text := "(" } : Token)]) 1 ts2
          = Except.ok (vals1,
              (buf1 ++ [({ kind := TokKind.formStart, text := "(" } : Token)]) ++ ts2,
              1 + deltaCount ts2) :=
      scan_buffers ts2 vals1 _ 1 hnc hso
    have hA :
        scanValues [] [] 0
            (ts1 ++ ({ kind := TokKind.formStart, text := "(" } : Token) :: ts2)
          = Except.ok (vals1,
              (buf1 ++ [({ kind := TokKind.formStart, text := "(" } : Token)]) ++ ts2,
              1 + deltaCount ts2) := by
      rw [scan_append, h1]
      exact hbody
    constructor
    · unfold valuesFromTokens
      rw [hA]
    · unfold valuesFromTokens
      rw [h1]
  · rfl

/-- C9 witness: the scan of `( a b` — a form-start never closed —
returns `Ok` with no values, matching `Values::from_str "(a b"`. -/
theorem c9_unclosed_form_discarded_witness :
    valuesFromTokens
        [({ kind := TokKind.formStart, text := "(" } : Token),
         ({ kind := TokKind.valueSymbol, text := "a" } : Token),
         ({ kind := TokKind.valueSymbol, text := "b" } : Token)]
      = Except.ok [] ∧
    Values.fromStr "(a b" = Except.ok [] :=
  ⟨(c9_unclosed_form_discarded.1 []
      [({ kind := TokKind.valueSymbol, text := "a" } : Token),
       ({ kind := TokKind.valueSymbol, text := "b" } : Token)] [] [] rfl
      (by unfold noCommentToks; decide) (by unfold staysOpen; decide)).1,
   c9_unclosed_form_discarded.2⟩

/-- A form accepted by `ProdForm::from_form` is headed `prod`. -/
theorem prodForm_ok_name (g : Form) (p : ProdForm) :
    ProdForm.fromForm g = Except.ok p → Form.name g = "prod" := by
  intro h
  unfold ProdForm.fromForm at h
  by_cases hn : Form.name g ≠ "prod"
  · rw [if_pos hn] at h
    exact absurd h (by simp)
  · push_neg at hn
    exact hn

/-- C4: in a `FunForm` body position holding a nested form, the
sub-parsers are tried in the fixed order TypeForm, ProdForm, LetForm,
CaseForm, AppForm (as written in the `funBody` cascade), committing to
the first success; for every nested form accepted by both
`ProdForm::from_form` and `AppForm::from_form`, the resulting
`FunFormBody` is the ProdForm variant, never the AppForm variant. -/
theorem c4_cascade_prod_beats_app (hsv : SimpleValue) (e0 : FormTailElement) (g : Form)
    (ps : List FunFormParam) (p : ProdForm) (a : AppForm)
    (hname : hsv.toStr = "fun")
    (hps : funParams e0 = Except.ok ps)
    (hp : ProdForm.fromForm g = Except.ok p)
    (_ha : AppForm.fromForm g = Except.ok a) :
    FunForm.fromForm (Form.mk hsv [e0, FormTailElement.form g])
      = Except.ok { params := ps, body := FunFormBody.prodForm p } := by
  have hgname : (Form.head g).toStr = "prod" := prodForm_ok_name g p hp
  have htf : TypeForm.fromForm g
      = Except.error { kind := ErrKind.syntactic, desc := "expected a type keyword" } := by
    unfold TypeForm.fromForm
    rw [hgname]
    rw [if_pos (by decide)]
  have hbody : funBody (FormTailElement.form g) = Except.ok (FunFormBody.prodForm p) := by
    simp only [funBody]
    rw [htf, hp]
  unfold FunForm.fromForm
  have hfname : Form.name (Form.mk hsv [e0, FormTailElement.form g]) = "fun" := hname
  rw [hfname]
  rw [if_neg (by decide)]
  simp only [Form.tail]
  rw [hps, hbody]

/-- C4 witness: `(fun () (prod a b))` — the nested `(prod a b)` is
valid both as a ProdForm and as an AppForm, and the parsed body is the
ProdForm variant. -/
theorem c4_cascade_prod_beats_app_witness :
    FunForm.fromForm
        (Form.mk (SimpleValue.valueSymbol "fun")
          [FormTailElement.simple SimpleValue.empty,
           FormTailElement.form
             (Form.mk (SimpleValue.valueSymbol "prod")
               [FormTailElement.simple (SimpleValue.valueSymbol "a"),
                FormTailElement.simple (SimpleValue.valueSymbol "b")])])
      = Except.ok
          { params := [],
            body := FunFormBody.prodForm
              { values := [ProdFormValue.valueSymbol "a", ProdFormValue.valueSymbol "b"] } } :=
  c4_cascade_prod_beats_app (SimpleValue.valueSymbol "fun")
    (FormTailElement.simple SimpleValue.empty)
    (Form.mk (SimpleValue.valueSymbol "prod")
      [FormTailElement.simple (SimpleValue.valueSymbol "a"),
       FormTailElement.simple (SimpleValue.valueSymbol "b")])
    []
    { values := [ProdFormValue.valueSymbol "a", ProdFormValue.valueSymbol "b"] }
    { name := "prod",
      params :=
        [FormTailElement.simple (SimpleValue.valueSymbol "a"),
         FormTailElement.simple (SimpleValue.valueSymbol "b")] }
    rfl rfl rfl rfl

/-- The parameter loop of `FunForm::from_form` rejects any product
containing a qualified symbol, with a `SyntacticError`. -/
theorem funParamsProd_qualified_error (vs : List ProdFormValue) :
    (∃ v ∈ vs, prodValQualifiedSym v) →
    ∃ e, funParamsFromProdValues vs = Except.error e ∧ e.kind = ErrKind.syntactic := by
  induction vs with
  | nil =>
    rintro ⟨v, hv, _⟩
    simp at hv
  | cons v vs ih =>
    rintro ⟨w, hw, hq⟩
    rcases List.mem_cons.mp hw with rfl | hw2
    · rcases hq with ⟨s, rfl, hqs⟩ | ⟨s, rfl, hqs⟩
      · refine ⟨{ kind := ErrKind.syntactic, desc := "expected an unqualified symbol" }, ?_, rfl⟩
        simp only [funParamsFromProdValues]
        rw [if_pos hqs]
      · refine ⟨{ kind := ErrKind.syntactic, desc := "expected an unqualified symbol" }, ?_, rfl⟩
        simp only [funParamsFromProdValues]
        rw [if_pos hqs]
    · cases v with
      | typeSymbol s =>
        by_cases hq2 : isQualified s = true
        · refine ⟨{ kind := ErrKind.syntactic, desc := "expected an unqualified symbol" }, ?_, rfl⟩
          simp only [funParamsFromProdValues]
          rw [if_pos hq2]
        · obtain ⟨e, he, hk⟩ := ih ⟨w, hw2, hq⟩
          refine ⟨e, ?_, hk⟩
          simp only [funParamsFromProdValues]
          rw [if_neg hq2, he]
      | valueSymbol s =>
        by_cases hq2 : isQualified s = true
        · refine ⟨{ kind := ErrKind.syntactic, desc := "expected an unqualified symbol" }, ?_, rfl⟩
          simp only [funParamsFromProdValues]
          rw [if_pos hq2]
        · obtain ⟨e, he, hk⟩ := ih ⟨w, hw2, hq⟩
          refine ⟨e, ?_, hk⟩
          simp only [funParamsFromProdValues]
          rw [if_neg hq2, he]
      | empty =>
        exact ⟨{ kind := ErrKind.syntactic, desc := "expected a product of symbols" },
          by simp [funParamsFromProdValues], rfl⟩
      | prim s =>
        exact ⟨{ kind := ErrKind.syntactic, desc := "expected a product of symbols" },
          by simp [funParamsFromProdValues], rfl⟩
      | typeKeyword s =>
        exact ⟨{ kind := ErrKind.syntactic, desc := "expected a product of symbols" },
          by simp [funParamsFromProdValues], rfl⟩
      | pathSymbol s =>
        exact ⟨{ kind := ErrKind.syntactic, desc := "expected a product of symbols" },
          by simp [funParamsFromProdValues], rfl⟩
      | form g =>
        exact ⟨{ kind := ErrKind.syntactic, desc := "expected a product of symbols" },
          by simp [funParamsFromProdValues], rfl⟩

/-- A params-position element carrying a qualified symbol makes the
params match of `FunForm::from_form` fail with a `SyntacticError`. -/
theorem funParams_qualified_error (e0 : FormTailElement) :
    paramQualified e0 →
    ∃ e, funParams e0 = Except.error e ∧ e.kind = ErrKind.syntactic := by
  rintro (⟨s, rfl, hqs⟩ | ⟨s, rfl, hqs⟩ | ⟨g, p, rfl, hp, hmem⟩)
  · refine ⟨{ kind := ErrKind.syntactic, desc := "expected an unqualified symbol" }, ?_, rfl⟩
    simp only [funParams]
    rw [if_pos hqs]
  · refine ⟨{ kind := ErrKind.syntactic, desc := "expected an unqualified symbol" }, ?_, rfl⟩
    simp only [funParams]
    rw [if_pos hqs]
  · obtain ⟨e, he, hk⟩ := funParamsProd_qualified_error p.values hmem
    refine ⟨e, ?_, hk⟩
    simp only [funParams]
    rw [hp]
    exact he

/-- The value loop of `AttrsForm::from_fun_app` only fails with
`SemanticError`s. -/
theorem attrsValuesFrom_error (ps : List FunAppFormParam) :
    ∀ e, attrsValuesFrom ps = Except.error e → e.kind = ErrKind.semantic := by
  induction ps with
  | nil =>
    intro e h
    simp [attrsValuesFrom] at h
  | cons p ps ih =>
    intro e h
    cases p with
    | symbol s =>
      rw [attrsValuesFrom] at h
      cases ha : attrsValuesFrom ps with
      | ok vs => rw [ha] at h; exact absurd h (by simp)
      | error e2 =>
        rw [ha] at h
        simp only [Except.error.injEq] at h
        subst h
        exact ih e2 ha
    | empty => simp only [attrsValuesFrom, Except.error.injEq] at h; subst h; rfl
    | prim s => simp only [attrsValuesFrom, Except.error.injEq] at h; subst h; rfl
    | funApp fa => simp only [attrsValuesFrom, Except.error.injEq] at h; subst h; rfl

/-- Every rejection of `AttrsForm::from_fun_app` is a `SemanticError`,
never a `SyntacticError`. -/
theorem attrsFromFunApp_error_semantic (fa : FunAppForm) :
    ∀ e, AttrsForm.fromFunApp fa = Except.error e → e.kind = ErrKind.semantic := by
  intro e h
  unfold AttrsForm.fromFunApp at h
  repeat' split at h
  all_goals
    first
      | (injection h with h2; subst h2; rfl)
      | (injection h with h2; subst h2; exact attrsValuesFrom_error _ _ (by assumption))
      | simp at h

/-- C3 counterexample: the attrs name is never checked for
qualification — `"(attrs moduleX.x (prod attr))"`, whose name contains
the qualifying separator, parses successfully instead of yielding a
`SyntacticError`. -/
theorem c3_counterexample_attrs_qualified_name_parses :
    isQualified "moduleX.x" = true ∧
    AttrsForm.fromStr "(attrs moduleX.x (prod attr))"
      = Except.ok { name := "moduleX.x", values := ["attr"] } :=
  ⟨rfl, rfl⟩

/-- C3 amended: a qualified function parameter or type-form name makes
`FunForm::from_form` resp. `TypeForm::from_form` fail with a
`SyntacticError` (and a separator-bearing word never lexes as an
unqualified type symbol); but `AttrsForm::from_fun_app` performs no
qualification check on its name — a qualified attrs name parses
successfully — and every rejection it does produce is a
`SemanticError`, not a `SyntacticError`. -/
theorem c3_qualification_amended :
    (∀ (hsv : SimpleValue) (e0 e1 : FormTailElement),
      hsv.toStr = "fun" → paramQualified e0 →
      ∃ e, FunForm.fromForm (Form.mk hsv [e0, e1]) = Except.error e ∧
        e.kind = ErrKind.syntactic) ∧
    (∀ (hsv sv : SimpleValue) (e1 : FormTailElement),
      hsv.toStr = "type" → typeNameQualified sv →
      TypeForm.fromForm (Form.mk hsv [FormTailElement.simple sv, e1])
        = Except.error { kind := ErrKind.syntactic, desc := "expected an unqualified type symbol" }) ∧
    (∀ w : String, isQualified w = true →
      SimpleValue.fromWord w = SimpleValue.valueSymbol w ∨
      SimpleValue.fromWord w = SimpleValue.typePathSymbol w) ∧
    (∀ (fa : FunAppForm) (e : Err),
      AttrsForm.fromFunApp fa = Except.error e → e.kind = ErrKind.semantic) ∧
    AttrsForm.fromStr "(attrs moduleX.x (prod attr))"
      = Except.ok { name := "moduleX.x", values := ["attr"] } := by
  refine ⟨?_, ?_, ?_, attrsFromFunApp_error_semantic, rfl⟩
  · intro hsv e0 e1 hname hq
    obtain ⟨e, he, hk⟩ := funParams_qualified_error e0 hq
    refine ⟨e, ?_, hk⟩
    unfold FunForm.fromForm
    have hfname : Form.name (Form.mk hsv [e0, e1]) = "fun" := hname
    rw [hfname]
    rw [if_neg (by decide)]
    simp only [Form.tail]
    rw [he]
  · intro hsv sv e1 hname hq
    unfold TypeForm.fromForm
    have hfname : (Form.head (Form.mk hsv [FormTailElement.simple sv, e1])).toStr = "type" :=
      hname
    rw [hfname]
    rw [if_neg (by decide)]
    simp only [Form.tail]
    rcases hq with ⟨s, rfl⟩ | ⟨s, rfl⟩ <;> rfl
  · intro w h
    unfold SimpleValue.fromWord
    rw [if_pos h]
    cases hls : lastSegment w with
    | nil => simp [hls]
    | cons c cs =>
      by_cases hu : c.isUpper = true
      · simp [hls, hu]
      · simp [hls, hu]

/-- C3 witness: the amended statement instantiated — `(fun m.x y)`
fails syntactically, `(type moduleX.X Char)` fails with the
unqualified-type-symbol error, `moduleX.x` lexes as a qualified value
symbol, and a non-`attrs` application is rejected semantically. -/
theorem c3_qualification_amended_witness :
    (∃ e, FunForm.fromForm
        (Form.mk (SimpleValue.valueSymbol "fun")
          [FormTailElement.simple (SimpleValue.valueSymbol "m.x"),
           FormTailElement.simple (SimpleValue.valueSymbol "y")])
      = Except.error e ∧ e.kind = ErrKind.syntactic) ∧
    TypeForm.fromForm
        (Form.mk (SimpleValue.valueSymbol "type")
          [FormTailElement.simple (SimpleValue.typePathSymbol "moduleX.X"),
           FormTailElement.simple (SimpleValue.typeKeyword "Char")])
      = Except.error { kind := ErrKind.syntactic, desc := "expected an unqualified type symbol" } ∧
    (SimpleValue.fromWord "moduleX.x" = SimpleValue.valueSymbol "moduleX.x" ∨
      SimpleValue.fromWord "moduleX.x" = SimpleValue.typePathSymbol "moduleX.x") ∧
    ({ kind := ErrKind.semantic, desc := "expected a attrs keyword" } : Err).kind
      = ErrKind.semantic :=
  ⟨c3_qualification_amended.1 (SimpleValue.valueSymbol "fun")
      (FormTailElement.simple (SimpleValue.valueSymbol "m.x"))
      (FormTailElement.simple (SimpleValue.valueSymbol "y")) rfl
      (Or.inl ⟨"m.x", rfl, rfl⟩),
   c3_qualification_amended.2.1 (SimpleValue.valueSymbol "type")
      (SimpleValue.typePathSymbol "moduleX.X")
      (FormTailElement.simple (SimpleValue.typeKeyword "Char")) rfl
      (Or.inr ⟨"moduleX.X", rfl⟩),
   c3_qualification_amended.2.2.1 "moduleX.x" rfl,
   c3_qualification_amended.2.2.2.1 (FunAppForm.mk "x" [])
      { kind := ErrKind.semantic, desc := "expected a attrs keyword" } rfl⟩

/-- Processing a main function definition: it fills the empty
`main_fun` slot, and errors with "duplicate main function" when the
slot is already filled. -/
theorem step_mainfun (st : SymbolTable) (v : Value) (h : IsMainFunDef v) :
    (st.mainFun = none → ∃ st2, SymbolTable.step st v = some (Except.ok st2) ∧
       st2.mainFun = some (STElement.fromValue v)) ∧
    (st.mainFun ≠ none → SymbolTable.step st v
       = some (Except.error { kind := ErrKind.semantic, desc := "duplicate main function" })) := by
  have hkw1 : Keyword.fromStr "defun" = some Keyword.defun := rfl
  have hkw2 : Keyword.fromStr "def" = some Keyword.defGeneric := rfl
  have hkw3 : Keyword.fromStr "fun" = some Keyword.funK := rfl
  rcases h with ⟨hname, ⟨ts, hty⟩, ⟨c, hc, hcn⟩⟩ |
    ⟨hname, ⟨ts, hty⟩, hlen, ⟨c, hc, hcn⟩, ⟨c2, hc2, hlen2, ⟨c0, hc0, hc0n⟩⟩⟩
  · constructor
    · intro hm
      cases hf : v.file with
      | none =>
        refine ⟨{ st with
            defFuns := insSet "main" st.defFuns,
            funs := insMap "main" (STElement.fromValue v) st.funs,
            mainFun := some (STElement.fromValue v) }, ?_, rfl⟩
        simp only [SymbolTable.step, hty, hname, hf, hkw1, handleDefun, hc, hcn]
        simp [hm]
      | some f =>
        refine ⟨{ st with
            files := insSet f st.files,
            defFuns := insSet "main" st.defFuns,
            funs := insMap "main" (STElement.fromValue v) st.funs,
            mainFun := some (STElement.fromValue v) }, ?_, rfl⟩
        simp only [SymbolTable.step, hty, hname, hf, hkw1, handleDefun, hc, hcn]
        simp [hm]
    · intro hm
      have hms : st.mainFun.isSome = true := by
        cases hmf : st.mainFun with
        | none => exact absurd hmf hm
        | some e0 => rfl
      cases hf : v.file with
      | none =>
        simp only [SymbolTable.step, hty, hname, hf, hkw1, handleDefun, hc, hcn]
        simp [hms]
      | some f =>
        simp only [SymbolTable.step, hty, hname, hf, hkw1, handleDefun, hc, hcn]
        simp [hms]
  · have hlen2' : c2.children.length = 2 := hlen2
    constructor
    · intro hm
      cases hf : v.file with
      | none =>
        refine ⟨{ st with
            defFuns := insSet "main" st.defFuns,
            funs := insMap "main" (STElement.fromValue v) st.funs,
            mainFun := some (STElement.fromValue v) }, ?_, rfl⟩
        simp only [SymbolTable.step, hty, hname, hf, hkw2, handleDef, hc, hcn, hc2,
          hc0, hc0n, hkw3, defDispatch]
        simp [hlen, hlen2', hm]
      | some f =>
        refine ⟨{ st with
            files := insSet f st.files,
            defFuns := insSet "main" st.defFuns,
            funs := insMap "main" (STElement.fromValue v) st.funs,
            mainFun := some (STElement.fromValue v) }, ?_, rfl⟩
        simp only [SymbolTable.step, hty, hname, hf, hkw2, handleDef, hc, hcn, hc2,
          hc0, hc0n, hkw3, defDispatch]
        simp [hlen, hlen2', hm]
    · intro hm
      have hms : st.mainFun.isSome = true := by
        cases hmf : st.mainFun with
        | none => exact absurd hmf hm
        | some e0 => rfl
      cases hf : v.file with
      | none =>
        simp only [SymbolTable.step, hty, hname, hf, hkw2, handleDef, hc, hcn, hc2,
          hc0, hc0n, hkw3, defDispatch]
        simp [hlen, hlen2', hms]
      | some f =>
        simp only [SymbolTable.step, hty, hname, hf, hkw2, handleDef, hc, hcn, hc2,
          hc0, hc0n, hkw3, defDispatch]
        simp [hlen, hlen2', hms]

/-- C7: for any two top-level main-function definitions (via `defun`
or generic `def` with the `fun` tag) in one `Values` sequence, the
first fills the `main_fun` slot and the second fails with the
SemanticError "duplicate main function"; the analogous
first-wins/error-on-duplicate behaviour holds for the `Main` type,
main signature, main application, and main attribute-set slots
(witnessed on concrete duplicate sources). -/
theorem c7_duplicate_main_slots :
    (∀ v1 v2 : Value, IsMainFunDef v1 → IsMainFunDef v2 →
      (∃ st1, SymbolTable.fromValues [v1] = some (Except.ok st1) ∧
        st1.mainFun = some (STElement.fromValue v1)) ∧
      SymbolTable.fromValues [v1, v2]
        = some (Except.error { kind := ErrKind.semantic, desc := "duplicate main function" })) ∧
    stResultOf "(deftype Main X)\n(deftype Main X)"
      = some (Except.error { kind := ErrKind.semantic, desc := "duplicate Main type" }) ∧
    mainSlotIsSet "(deftype Main X)" SymbolTable.mainType = some true ∧
    stResultOf "(defsig main (Fun IO IO))\n(defsig main (Fun IO IO))"
      = some (Except.error { kind := ErrKind.semantic, desc := "duplicate main signature" }) ∧
    mainSlotIsSet "(defsig main (Fun IO IO))" SymbolTable.mainSig = some true ∧
    stResultOf "(def main (app f))\n(def main (app f))"
      = some (Except.error { kind := ErrKind.semantic, desc := "duplicate main application" }) ∧
    mainSlotIsSet "(def main (app f))" SymbolTable.mainApp = some true ∧
    stResultOf "(defattrs main (prod a))\n(defattrs main (prod a))"
      = some (Except.error { kind := ErrKind.semantic, desc := "duplicate main attributes" }) ∧
    mainSlotIsSet "(defattrs main (prod a))" SymbolTable.mainAttrs = some true := by
  refine ⟨?_, rfl, rfl, rfl, rfl, rfl, rfl, rfl, rfl⟩
  intro v1 v2 h1 h2
  obtain ⟨st1, hs1, hm1⟩ := (step_mainfun SymbolTable.new v1 h1).1 rfl
  have hdup := (step_mainfun st1 v2 h2).2 (by rw [hm1]; simp)
  constructor
  · exact ⟨st1, by simp [SymbolTable.fromValues, SymbolTable.run, hs1], hm1⟩
  · simp [SymbolTable.fromValues, SymbolTable.run, hs1, hdup]

/-- C7 witness: two identical hand-built `defun main` applications —
the first fills `main_fun`, the pair fails with "duplicate main
function". -/
theorem c7_duplicate_main_slots_witness :
    (∃ st1, SymbolTable.fromValues
        [Value.mk (some "defun") none (some (Ty.app [Ty.builtin]))
          [Value.mk (some "defun") none (some Ty.builtin) [] none,
           Value.mk (some "main") none (some Ty.unknown) [] none] none]
      = some (Except.ok st1) ∧
      st1.mainFun = some (STElement.fromValue
        (Value.mk (some "defun") none (some (Ty.app [Ty.builtin]))
          [Value.mk (some "defun") none (some Ty.builtin) [] none,
           Value.mk (some "main") none (some Ty.unknown) [] none] none))) ∧
    SymbolTable.fromValues
        [Value.mk (some "defun") none (some (Ty.app [Ty.builtin]))
          [Value.mk (some "defun") none (some Ty.builtin) [] none,
           Value.mk (some "main") none (some Ty.unknown) [] none] none,
         Value.mk (some "defun") none (some (Ty.app [Ty.builtin]))
          [Value.mk (some "defun") none (some Ty.builtin) [] none,
           Value.mk (some "main") none (some Ty.unknown) [] none] none]
      = some (Except.error { kind := ErrKind.semantic, desc := "duplicate main function" }) :=
  c7_duplicate_main_slots.1
    (Value.mk (some "defun") none (some (Ty.app [Ty.builtin]))
      [Value.mk (some "defun") none (some Ty.builtin) [] none,
       Value.mk (some "main") none (some Ty.unknown) [] none] none)
    (Value.mk (some "defun") none (some (Ty.app [Ty.builtin]))
      [Value.mk (some "defun") none (some Ty.builtin) [] none,
       Value.mk (some "main") none (some Ty.unknown) [] none] none)
    (Or.inl ⟨rfl, ⟨[], rfl⟩,
      ⟨Value.mk (some "main") none (some Ty.unknown) [] none, rfl, rfl⟩⟩)
    (Or.inl ⟨rfl, ⟨[], rfl⟩,
      ⟨Value.mk (some "main") none (some Ty.unknown) [] none, rfl, rfl⟩⟩)
